import Mathlib

set_option maxRecDepth 100000

/-!
Shallow embedding of the OCR-extraction core of the repository
(src/utils/normalize.js, src/parsers/classifier.js, src/parsers/bankParser.js,
src/parsers/taxParser.js, the schema validator, and the pure tail of
src/workers/processor.js), together with theorems settling the frozen claims
about it.

Strings are modelled as lists of characters; JavaScript regular expressions
are modelled by an explicit backtracking matcher (leftmost match, greedy
quantifiers, left-biased alternation, one-character lookahead classes, word
boundaries) over a small regex AST; each source pattern is transcribed into
that AST next to a comment quoting the original literal.  Floating-point
amounts are modelled as exact rationals.
-/

namespace OCE

/-! ## Character predicates (JS semantics, ASCII fragment) -/

/-- JS regex digit class: [0-9]. -/
def isDigitC (c : Char) : Bool := c.isDigit

/-- JS regex word class: [A-Za-z0-9_]. -/
def isWordC (c : Char) : Bool := c.isAlpha || c.isDigit || c = '_'

/-- JS whitespace (the characters relevant to this codebase's inputs):
space, tab, newline, carriage return, vertical tab, form feed. -/
def isSpaceC (c : Char) : Bool :=
  c = ' ' || c = '\t' || c = '\n' || c = '\r' || c = '\x0b' || c = '\x0c'

/-- JS String.prototype.trim on a character list. -/
def jsTrim (l : List Char) : List Char :=
  ((l.dropWhile isSpaceC).reverse.dropWhile isSpaceC).reverse

/-- Lowercasing of a character list (JS toLowerCase, ASCII fragment). -/
def toLowerL (l : List Char) : List Char := l.map Char.toLower

/-- Uppercasing of a character list (JS toUpperCase, ASCII fragment). -/
def toUpperL (l : List Char) : List Char := l.map Char.toUpper

/-! ## A model of JavaScript regular expressions

The AST covers exactly the constructs used by the source patterns:
character literals, classes (with ranges, the predefined classes and
negation), the dot, sequencing, alternation, capturing groups, greedy
star / plus / option / counted repetition, positive lookahead, word
boundaries and the string anchors. -/

/-- One item of a character class. -/
inductive CItem where
  | one (c : Char)
  | range (lo hi : Char)
  | digit
  | space
  | word
deriving DecidableEq, Repr

/-- Regex AST. -/
inductive RE where
  | eps
  | ch (c : Char)
  | cls (neg : Bool) (items : List CItem)
  | dot
  | seq (a b : RE)
  | alt (a b : RE)
  | grp (i : Nat) (r : RE)
  | star (r : RE)
  | rep (lo : Nat) (hi : Option Nat) (r : RE)
  | look (r : RE)
  | wb
  | bos
  | eos
deriving Repr

/-- Case-insensitive-capable character comparison (JS i-flag canonicalisation,
ASCII fragment). -/
def eqCI (ci : Bool) (a b : Char) : Bool :=
  a = b || (ci && a.toLower = b.toLower)

/-- Does character c match a class item (under optional case folding)? -/
def citemMatch (ci : Bool) (c : Char) : CItem → Bool
  | .one x => eqCI ci x c
  | .range lo hi =>
      (decide (lo ≤ c) && decide (c ≤ hi))
      || (ci && ((decide (lo ≤ c.toLower) && decide (c.toLower ≤ hi))
                 || (decide (lo ≤ c.toUpper) && decide (c.toUpper ≤ hi))))
  | .digit => isDigitC c
  | .space => isSpaceC c
  | .word => isWordC c

/-- Does character c match a (possibly negated) class? -/
def clsMatch (ci : Bool) (neg : Bool) (items : List CItem) (c : Char) : Bool :=
  let m := items.any (citemMatch ci c)
  if neg then !m else m

/-- Number of capturing groups of a pattern (the length of a JS non-global
match array is 1 + this number, whether or not the groups participate). -/
def countGroups : RE → Nat
  | .eps | .ch _ | .cls _ _ | .dot | .wb | .bos | .eos => 0
  | .seq a b | .alt a b => countGroups a + countGroups b
  | .grp _ r => 1 + countGroups r
  | .star r | .look r => countGroups r
  | .rep _ _ r => countGroups r

/-- Word-character test on an optional (edge) character; string edges count
as non-word for the purposes of a word boundary. -/
def wordOpt : Option Char → Bool
  | none => false
  | some c => isWordC c

/-- A frame of the matcher's control stack: a pattern still to match, the
close of a capturing group (remembering the input at its opening), the
close of a lookahead (remembering the position to restore), or the
progress check between greedy-quantifier iterations. -/
inductive Frame where
  | fre (r : RE)
  | fgroup (i : Nat) (start : List Char)
  | flook (savePrev : Option Char) (saveRest : List Char) (saveCaps : List (Nat × List Char))
  | fstar (r : RE) (lenBefore : Nat)
  | frep (hi : Nat) (r : RE) (lenBefore : Nat)

/-- A matcher state: the control stack, the previous character (for word
boundaries and the start anchor), the remaining input and the captures. -/
structure MState where
  conts : List Frame
  prev : Option Char
  rest : List Char
  caps : List (Nat × List Char)

/-- The backtracking matcher as a first-order machine: one flat step per
fuel unit, with an explicit stack of alternative states to resume on
failure.  Greedy quantifiers push the skip alternative and try the body
first; alternation pushes the right branch and tries the left; a
quantified body that consumes nothing stops the iteration (JS empty-match
rule); a lookahead restores position and captures when its sub-pattern
completes.  This realises the JS leftmost, greedy, left-biased
backtracking search order. -/
def mrun (ci : Bool) :
    Nat → MState → List MState → Option (List Char × List (Nat × List Char))
  | 0, _, _ => none
  | Nat.succ fuel, cur, alts =>
    match cur.conts with
    | [] => some (cur.rest, cur.caps)
    | f :: fs =>
      match f with
      | .fre re =>
        match re with
        | .eps => mrun ci fuel { cur with conts := fs } alts
        | .ch c =>
          match cur.rest with
          | x :: xs =>
            if eqCI ci c x then
              mrun ci fuel { conts := fs, prev := some x, rest := xs, caps := cur.caps } alts
            else
              match alts with
              | a :: as => mrun ci fuel a as
              | [] => none
          | [] =>
            match alts with
            | a :: as => mrun ci fuel a as
            | [] => none
        | .cls neg items =>
          match cur.rest with
          | x :: xs =>
            if clsMatch ci neg items x then
              mrun ci fuel { conts := fs, prev := some x, rest := xs, caps := cur.caps } alts
            else
              match alts with
              | a :: as => mrun ci fuel a as
              | [] => none
          | [] =>
            match alts with
            | a :: as => mrun ci fuel a as
            | [] => none
        | .dot =>
          match cur.rest with
          | x :: xs =>
            if x = '\n' || x = '\r' then
              match alts with
              | a :: as => mrun ci fuel a as
              | [] => none
            else
              mrun ci fuel { conts := fs, prev := some x, rest := xs, caps := cur.caps } alts
          | [] =>
            match alts with
            | a :: as => mrun ci fuel a as
            | [] => none
        | .seq a b =>
          mrun ci fuel { cur with conts := .fre a :: .fre b :: fs } alts
        | .alt a b =>
          mrun ci fuel { cur with conts := .fre a :: fs }
            ({ cur with conts := .fre b :: fs } :: alts)
        | .grp i r =>
          mrun ci fuel { cur with conts := .fre r :: .fgroup i cur.rest :: fs } alts
        | .star r =>
          mrun ci fuel { cur with conts := .fre r :: .fstar r cur.rest.length :: fs }
            ({ cur with conts := fs } :: alts)
        | .rep lo hi r =>
          match lo with
          | Nat.succ lo2 =>
            mrun ci fuel
              { cur with conts := .fre r :: .fre (.rep lo2 (hi.map (fun h => h - 1)) r) :: fs }
              alts
          | 0 =>
            match hi with
            | some 0 => mrun ci fuel { cur with conts := fs } alts
            | some (Nat.succ h) =>
              mrun ci fuel
                { cur with conts := .fre r :: .frep h r cur.rest.length :: fs }
                ({ cur with conts := fs } :: alts)
            | none =>
              mrun ci fuel { cur with conts := .fre r :: .fstar r cur.rest.length :: fs }
                ({ cur with conts := fs } :: alts)
        | .look r =>
          mrun ci fuel
            { cur with conts := .fre r :: .flook cur.prev cur.rest cur.caps :: fs } alts
        | .wb =>
          if wordOpt cur.prev != wordOpt cur.rest.head? then
            mrun ci fuel { cur with conts := fs } alts
          else
            match alts with
            | a :: as => mrun ci fuel a as
            | [] => none
        | .bos =>
          match cur.prev with
          | none => mrun ci fuel { cur with conts := fs } alts
          | some _ =>
            match alts with
            | a :: as => mrun ci fuel a as
            | [] => none
        | .eos =>
          match cur.rest with
          | [] => mrun ci fuel { cur with conts := fs } alts
          | _ :: _ =>
            match alts with
            | a :: as => mrun ci fuel a as
            | [] => none
      | .fgroup i start =>
        mrun ci fuel
          { cur with
            conts := fs
            caps := (i, start.take (start.length - cur.rest.length)) :: cur.caps } alts
      | .flook savePrev saveRest saveCaps =>
        mrun ci fuel { conts := fs, prev := savePrev, rest := saveRest, caps := saveCaps } alts
      | .fstar r lenBefore =>
        if cur.rest.length = lenBefore then
          match alts with
          | a :: as => mrun ci fuel a as
          | [] => none
        else
          mrun ci fuel { cur with conts := .fre r :: .fstar r cur.rest.length :: fs }
            ({ cur with conts := fs } :: alts)
      | .frep h r lenBefore =>
        if cur.rest.length = lenBefore then
          match alts with
          | a :: as => mrun ci fuel a as
          | [] => none
        else
          match h with
          | 0 => mrun ci fuel { cur with conts := fs } alts
          | Nat.succ h2 =>
            mrun ci fuel { cur with conts := .fre r :: .frep h2 r cur.rest.length :: fs }
              ({ cur with conts := fs } :: alts)

/-- Matcher fuel; far above the backtracking depth of any source pattern on
the inputs considered in this development. -/
def FUEL : Nat := 1000000

/-- Attempt a match of re anchored at the current position; on success
return the remaining input and the captures. -/
def reTryAt (ci : Bool) (re : RE) (prev : Option Char) (rest : List Char) :
    Option (List Char × List (Nat × List Char)) :=
  mrun ci FUEL ⟨[.fre re], prev, rest, []⟩ []

/-- A match result: start index, matched characters, captures. -/
structure MRes where
  idx : Nat
  mat : List Char
  caps : List (Nat × List Char)
deriving DecidableEq, Repr

/-- Leftmost match search from a given position (JS String.prototype.match
without the g flag; also RegExp.prototype.test). -/
def reFindFrom (ci : Bool) (re : RE) (idx : Nat) (prev : Option Char) :
    List Char → Option MRes
  | [] =>
    match reTryAt ci re prev [] with
    | some (r2, caps) => some ⟨idx, List.take (0 - r2.length) [], caps⟩
    | none => none
  | c :: cs =>
    match reTryAt ci re prev (c :: cs) with
    | some (r2, caps) =>
      some ⟨idx, (c :: cs).take ((c :: cs).length - r2.length), caps⟩
    | none => reFindFrom ci re (idx + 1) (some c) cs

/-- Leftmost match of a pattern in a string. -/
def reFind (ci : Bool) (re : RE) (l : List Char) : Option MRes :=
  reFindFrom ci re 0 none l

/-- RegExp.prototype.test. -/
def reTest (ci : Bool) (re : RE) (l : List Char) : Bool :=
  (reFind ci re l).isSome

/-- All matches, left to right (JS String.prototype.match with the g flag).
An empty match advances the scan by one character. -/
def reScanAll (ci : Bool) (re : RE) :
    Nat → Nat → Option Char → List Char → List MRes
  | 0, _, _, _ => []
  | Nat.succ fuel, idx, prev, rest =>
    match reTryAt ci re prev rest with
    | some (r2, caps) =>
      let m := rest.take (rest.length - r2.length)
      match m.getLast? with
      | none =>
        match rest with
        | [] => [⟨idx, [], caps⟩]
        | c :: cs => ⟨idx, [], caps⟩ :: reScanAll ci re fuel (idx + 1) (some c) cs
      | some last => ⟨idx, m, caps⟩ :: reScanAll ci re fuel (idx + m.length) (some last) r2
    | none =>
      match rest with
      | [] => []
      | c :: cs => reScanAll ci re fuel (idx + 1) (some c) cs

/-- All matches of a pattern in a string. -/
def reFindAll (ci : Bool) (re : RE) (l : List Char) : List MRes :=
  reScanAll ci re (l.length + 1) 0 none l

/-- Look up a capture group in a match (undefined groups yield none). -/
def capGet (m : MRes) (i : Nat) : Option (List Char) :=
  (m.caps.find? (fun p => p.1 = i)).map (fun p => p.2)

/-- JS String.prototype.split on a regex (no captures in the separator):
the segments of the string between consecutive matches. -/
def reSplit (ci : Bool) (re : RE) (l : List Char) : List (List Char) :=
  let ms := reFindAll ci re l
  let step := ms.foldl
    (fun (acc : List (List Char) × Nat) m =>
      (acc.1 ++ [(l.drop acc.2).take (m.idx - acc.2)], m.idx + m.mat.length))
    ([], 0)
  step.1 ++ [l.drop step.2]

/-! ### Regex construction helpers -/

/-- Sequence a list of characters as literals. -/
def lit : List Char → RE
  | [] => .eps
  | [c] => .ch c
  | c :: rest => .seq (.ch c) (lit rest)

/-- Literal from a string. -/
def litS (s : String) : RE := lit s.data

/-- Left-biased alternation of a list (first alternative preferred). -/
def alts : List RE → RE
  | [] => .eps
  | [r] => r
  | r :: rest => .alt r (alts rest)

/-- Sequence of a list. -/
def seqs : List RE → RE
  | [] => .eps
  | [r] => r
  | r :: rest => .seq r (seqs rest)

/-- Greedy plus. -/
def plus1 (r : RE) : RE := .seq r (.star r)

/-- Greedy option (?). -/
def opt (r : RE) : RE := .rep 0 (some 1) r

/-- The class \d. -/
def dCls : RE := .cls false [.digit]

/-- The class \s. -/
def sCls : RE := .cls false [.space]

/-- \d{lo,hi}. -/
def dRep (lo hi : Nat) : RE := .rep lo (some hi) dCls

/-- \s* (greedy). -/
def sStar : RE := .star sCls

/-- \s+ (greedy). -/
def sPlus : RE := plus1 sCls

/-! ## src/utils/normalize.js — cleanOCRArtifacts

The five substitutions of cleanOCRArtifacts are simple enough to model
directly as recursive functions (a generic contextual character map for the
three letter-to-digit rules, and two run-collapsing scans), which the
idempotence analysis of claim C2 needs to reason about by induction.  Each
is annotated with the regex it models.  A global replace scans the source
string left to right; a lookahead does not consume its character, and the
scan resumes after the (one-character) match, which is exactly a character
map with one character of right context and the original left context. -/

/-- Is the head of a list a decimal digit? -/
def digitOpt : Option Char → Bool
  | none => false
  | some c => isDigitC c

/-- Character map with left context (the original previous character) and
one character of right lookahead. -/
def mapCtx (f : Option Char → Char → Option Char → Char) :
    Option Char → List Char → List Char
  | _, [] => []
  | prev, c :: rest => f prev c rest.head? :: mapCtx f (some c) rest

/-- Substitute r for the current character when the trigger fires. -/
def substIf (t : Option Char → Char → Option Char → Bool) (r : Char) :
    Option Char → Char → Option Char → Char :=
  fun p c n => if t p c n then r else c

/-- Does the trigger fire anywhere in the list (given the left context)? -/
def hasTrig (t : Option Char → Char → Option Char → Bool) :
    Option Char → List Char → Bool
  | _, [] => false
  | prev, c :: rest => t prev c rest.head? || hasTrig t (some c) rest

/-- Trigger of .replace(/l(?=\d)/g, '1'): lowercase l before a digit. -/
def trigL (_ : Option Char) (c : Char) (nxt : Option Char) : Bool :=
  c = 'l' && digitOpt nxt

/-- Trigger of .replace(/O(?=\d)/g, '0'): uppercase O before a digit. -/
def trigO (_ : Option Char) (c : Char) (nxt : Option Char) : Bool :=
  c = 'O' && digitOpt nxt

/-- Trigger of .replace(/\bI(?=\d)/g, '1'): uppercase I at a word boundary
before a digit. -/
def trigI (p : Option Char) (c : Char) (nxt : Option Char) : Bool :=
  c = 'I' && !wordOpt p && digitOpt nxt

/-- .replace(/l(?=\d)/g, '1'). -/
def fixL (l : List Char) : List Char := mapCtx (substIf trigL '1') none l

/-- .replace(/O(?=\d)/g, '0'). -/
def fixO (l : List Char) : List Char := mapCtx (substIf trigO '0') none l

/-- .replace(/\bI(?=\d)/g, '1'). -/
def fixI (l : List Char) : List Char := mapCtx (substIf trigI '1') none l

/-- Is the head of a list a whitespace character? -/
def spaceOpt : Option Char → Bool
  | none => false
  | some c => isSpaceC c

/-- Contextual filter-map: like mapCtx, but the rule may also drop the
current character.  A global run-collapsing replace is such a rule: the
first character of a run (recognised from the original left context and
one character of lookahead) emits the replacement, the rest of the run
emits nothing. -/
def filtCtx (f : Option Char → Char → Option Char → Option Char) :
    Option Char → List Char → List Char
  | _, [] => []
  | prev, c :: rest =>
    match f prev c rest.head? with
    | some o => o :: filtCtx f (some c) rest
    | none => filtCtx f (some c) rest

/-- Rule of .replace(/[|]{2,}/g, ' '): inside a pipe run emit nothing; at
the start of a run of length at least two emit one space; keep a lone
pipe. -/
def pipeRule (p : Option Char) (c : Char) (n : Option Char) : Option Char :=
  if c = '|' then
    if p = some '|' then none
    else if n = some '|' then some ' '
    else some '|'
  else some c

/-- .replace(/[|]{2,}/g, ' '). -/
def collapsePipes (l : List Char) : List Char := filtCtx pipeRule none l

/-- Rule of .replace(/\s{2,}/g, ' '): inside a whitespace run emit
nothing; at the start of a run of length at least two emit one space; keep
a lone whitespace character as it is. -/
def wsRule (p : Option Char) (c : Char) (n : Option Char) : Option Char :=
  if isSpaceC c then
    if spaceOpt p then none
    else if spaceOpt n then some ' '
    else some c
  else some c

/-- .replace(/\s{2,}/g, ' '). -/
def collapseWS (l : List Char) : List Char := filtCtx wsRule none l

/-- cleanOCRArtifacts: the five substitutions applied in source order
(pipes, l-before-digit, O-before-digit, boundary-I-before-digit,
whitespace runs). -/
def cleanOCRList (l : List Char) : List Char :=
  collapseWS (fixI (fixO (fixL (collapsePipes l))))

/-- cleanOCRArtifacts on strings. -/
def cleanOCRArtifacts (text : String) : String :=
  String.mk (cleanOCRList text.data)

/-! ## src/utils/normalize.js — getLines -/

/-- text.split(/\r?\n/): newline or CRLF separates lines; a lone carriage
return does not. -/
def splitNL : List Char → List (List Char)
  | [] => [[]]
  | '\r' :: '\n' :: rest => [] :: splitNL rest
  | '\n' :: rest => [] :: splitNL rest
  | c :: rest =>
    match splitNL rest with
    | [] => [[c]]
    | l :: ls => (c :: l) :: ls

/-- getLines: split on newlines, trim every line, drop blank lines. -/
def getLinesL (l : List Char) : List (List Char) :=
  ((splitNL l).map jsTrim).filter (fun x => !x.isEmpty)

/-- getLines on strings. -/
def getLines (text : String) : List String :=
  (getLinesL text.data).map String.mk

/-! ## src/utils/normalize.js — normalizeDate

date-fns parse is modelled by a token-list interpreter: every format in
DATE_FORMATS fully specifies day, month and year, numeric tokens match
greedily one up to their width digits (date-fns parseNDigits), MMM matches
a case-insensitive three-letter English month abbreviation, literal
characters must match exactly, the whole string must be consumed, day is
validated against 1..31 and month against 1..12 (the per-token date-fns
validation), and the resulting calendar fields are materialised with the
JS Date day-overflow semantics (a day beyond the month's length rolls into
the following month).  The reference date new Date() only supplies the
time of day, which the output format yyyy-MM-dd discards; normalizeDateAt
makes that explicit. -/

/-- A calendar date as year, month (1..12 after materialisation), day. -/
structure Ymd where
  y : Nat
  m : Nat
  d : Nat
deriving DecidableEq, Repr

/-- Format tokens of the date-fns format strings used by the source. -/
inductive FTok where
  | D
  | DD
  | M
  | MM
  | MMM
  | YYYY
  | lit (c : Char)
deriving DecidableEq, Repr

/-- Take up to n leading characters satisfying p. -/
def takeUpTo : Nat → (Char → Bool) → List Char → List Char × List Char
  | 0, _, l => ([], l)
  | _ + 1, _, [] => ([], [])
  | n + 1, p, c :: cs =>
    if p c then
      let r := takeUpTo n p cs
      (c :: r.1, r.2)
    else ([], c :: cs)

/-- The value of a list of decimal digits. -/
def digitsToNat (ds : List Char) : Nat :=
  ds.foldl (fun a c => a * 10 + (c.toNat - 48)) 0

/-- Greedy numeric token: one up to maxN digits. -/
def parseNumTok (maxN : Nat) (l : List Char) : Option (Nat × List Char) :=
  let r := takeUpTo maxN isDigitC l
  if r.1.isEmpty then none else some (digitsToNat r.1, r.2)

/-- English month abbreviations, in month order. -/
def monthAbbrs : List (List Char) :=
  ["jan", "feb", "mar", "apr", "may", "jun",
   "jul", "aug", "sep", "oct", "nov", "dec"].map String.data

/-- Case-insensitive three-letter month abbreviation token. -/
def parseMMM (l : List Char) : Option (Nat × List Char) :=
  match monthAbbrs.findIdx? (fun mn => toLowerL (l.take 3) = mn) with
  | some i => some (i + 1, l.drop 3)
  | none => none

/-- Run a format's token list over the input, accumulating the calendar
fields; the whole input must be consumed. -/
def runFmt : List FTok → List Char → Ymd → Option Ymd
  | [], l, acc => if l.isEmpty then some acc else none
  | FTok.D :: ts, l, acc =>
    match parseNumTok 2 l with
    | some (v, rest) => if 1 ≤ v && v ≤ 31 then runFmt ts rest { acc with d := v } else none
    | none => none
  | FTok.DD :: ts, l, acc =>
    match parseNumTok 2 l with
    | some (v, rest) => if 1 ≤ v && v ≤ 31 then runFmt ts rest { acc with d := v } else none
    | none => none
  | FTok.M :: ts, l, acc =>
    match parseNumTok 2 l with
    | some (v, rest) => if 1 ≤ v && v ≤ 12 then runFmt ts rest { acc with m := v } else none
    | none => none
  | FTok.MM :: ts, l, acc =>
    match parseNumTok 2 l with
    | some (v, rest) => if 1 ≤ v && v ≤ 12 then runFmt ts rest { acc with m := v } else none
    | none => none
  | FTok.MMM :: ts, l, acc =>
    match parseMMM l with
    | some (v, rest) => runFmt ts rest { acc with m := v }
    | none => none
  | FTok.YYYY :: ts, l, acc =>
    match parseNumTok 4 l with
    | some (v, rest) => runFmt ts rest { acc with y := v }
    | none => none
  | FTok.lit c :: ts, l, acc =>
    match l with
    | x :: xs => if x = c then runFmt ts xs acc else none
    | [] => none

/-- Parse one format (all formats set all three fields). -/
def parseFmt (f : List FTok) (l : List Char) : Option Ymd :=
  runFmt f l ⟨0, 0, 0⟩

/-- The DATE_FORMATS list of the source, in order:
'dd/MM/yyyy', 'MM/dd/yyyy', 'yyyy-MM-dd', 'dd-MM-yyyy', 'MM-dd-yyyy',
'd/M/yyyy', 'd-M-yyyy', 'dd MMM yyyy', 'dd-MMM-yyyy', 'MMM dd, yyyy',
'MMM d, yyyy', 'dd.MM.yyyy', 'yyyy/MM/dd'. -/
def DATE_FORMATS : List (List FTok) :=
  [[FTok.DD, FTok.lit '/', FTok.MM, FTok.lit '/', FTok.YYYY],
   [FTok.MM, FTok.lit '/', FTok.DD, FTok.lit '/', FTok.YYYY],
   [FTok.YYYY, FTok.lit '-', FTok.MM, FTok.lit '-', FTok.DD],
   [FTok.DD, FTok.lit '-', FTok.MM, FTok.lit '-', FTok.YYYY],
   [FTok.MM, FTok.lit '-', FTok.DD, FTok.lit '-', FTok.YYYY],
   [FTok.D, FTok.lit '/', FTok.M, FTok.lit '/', FTok.YYYY],
   [FTok.D, FTok.lit '-', FTok.M, FTok.lit '-', FTok.YYYY],
   [FTok.DD, FTok.lit ' ', FTok.MMM, FTok.lit ' ', FTok.YYYY],
   [FTok.DD, FTok.lit '-', FTok.MMM, FTok.lit '-', FTok.YYYY],
   [FTok.MMM, FTok.lit ' ', FTok.DD, FTok.lit ',', FTok.lit ' ', FTok.YYYY],
   [FTok.MMM, FTok.lit ' ', FTok.D, FTok.lit ',', FTok.lit ' ', FTok.YYYY],
   [FTok.DD, FTok.lit '.', FTok.MM, FTok.lit '.', FTok.YYYY],
   [FTok.YYYY, FTok.lit '/', FTok.MM, FTok.lit '/', FTok.DD]]

/-- First format that parses, in list order. -/
def tryFormats : List (List FTok) → List Char → Option Ymd
  | [], _ => none
  | f :: fs, l =>
    match parseFmt f l with
    | some ymd => some ymd
    | none => tryFormats fs l

/-- Gregorian leap year. -/
def isLeap (y : Nat) : Bool := y % 4 = 0 && (y % 100 ≠ 0 || y % 400 = 0)

/-- Days in a month. -/
def daysInMonth (y m : Nat) : Nat :=
  if m = 2 then (if isLeap y then 29 else 28)
  else if m = 4 || m = 6 || m = 9 || m = 11 then 30
  else 31

/-- JS Date day-overflow semantics: a day count beyond the month's length
rolls into the following month(s). -/
def rollover : Nat → Ymd → Ymd
  | 0, x => x
  | Nat.succ f, x =>
    if x.d > daysInMonth x.y x.m then
      if x.m = 12 then rollover f ⟨x.y + 1, 1, x.d - daysInMonth x.y x.m⟩
      else rollover f ⟨x.y, x.m + 1, x.d - daysInMonth x.y x.m⟩
    else x

/-- Materialise token-parsed fields the way date-fns builds the Date
(month set with day 1, then the day set with overflow roll-over). -/
def mkDateJS (x : Ymd) : Ymd := rollover 4 x

/-- The character of a decimal digit. -/
def digitChar (n : Nat) : Char := Char.ofNat (48 + n % 10)

/-- Four-digit zero-padded decimal rendering. -/
def pad4 (n : Nat) : List Char :=
  [digitChar (n / 1000), digitChar (n / 100), digitChar (n / 10), digitChar n]

/-- Two-digit zero-padded decimal rendering. -/
def pad2 (n : Nat) : List Char := [digitChar (n / 10), digitChar n]

/-- format(date, 'yyyy-MM-dd'). -/
def formatYmdL (x : Ymd) : List Char :=
  pad4 x.y ++ '-' :: (pad2 x.m ++ '-' :: pad2 x.d)

/-- format(date, 'yyyy-MM-dd') on strings. -/
def formatYmdS (x : Ymd) : String := String.mk (formatYmdL x)

/-- Full English month names, in month order. -/
def monthFulls : List (List Char) :=
  ["january", "february", "march", "april", "may", "june", "july",
   "august", "september", "october", "november", "december"].map String.data

/-- Try the full month names as a case-insensitive prefix. -/
def matchMonthFull : Nat → List (List Char) → List Char → Option (Nat × List Char)
  | _, [], _ => none
  | i, mn :: rest, l =>
    if toLowerL (l.take mn.length) = mn then some (i + 1, l.drop mn.length)
    else matchMonthFull (i + 1) rest l

/-- Modelled fragment of the V8 fallback parser behind new Date(string), the
generic parse normalizeDate falls back to: a full English month name, a
space, a 1-2 digit day, an optional comma, a space and a four-digit year
(for example "January 15 1985" or "January 15, 1985"), with the day
validated against the month; every other string is treated as unparseable.
This is the only shape of fallback input this development exercises; the
guard on the parsed year in normalizeDate is independent of the fragment
chosen here. -/
def jsDateParse (l : List Char) : Option Ymd :=
  match matchMonthFull 0 monthFulls l with
  | none => none
  | some (m, r1) =>
    match r1 with
    | ' ' :: r2 =>
      match parseNumTok 2 r2 with
      | none => none
      | some (d, r3) =>
        let yearPart : Option (List Char) :=
          match r3 with
          | ',' :: ' ' :: t => some t
          | ' ' :: t => some t
          | _ => none
        match yearPart with
        | none => none
        | some t =>
          let r := takeUpTo 4 isDigitC t
          if r.1.length = 4 && r.2.isEmpty && 1 ≤ d && d ≤ daysInMonth (digitsToNat r.1) m then
            some ⟨digitsToNat r.1, m, d⟩
          else none
    | _ => none

/-- Rule of .replace(/\s+/g, ' '): every whitespace run, of any length,
becomes one space. -/
def wsAllRule (p : Option Char) (c : Char) (_ : Option Char) : Option Char :=
  if isSpaceC c then
    if spaceOpt p then none else some ' '
  else some c

/-- .replace(/\s+/g, ' '), as applied by normalizeDate to its trimmed
input. -/
def wsRunsToSpace (l : List Char) : List Char := filtCtx wsAllRule none l

/-- The cleaned input normalizeDate feeds to the parsers. -/
def cleanedDate (raw : String) : List Char :=
  wsRunsToSpace (jsTrim raw.data)

/-- normalizeDate with the clock reading made explicit: now stands for the
reference date new Date() handed to date-fns parse, which only contributes
the time of day of the parsed value; format(parsed, 'yyyy-MM-dd') discards
it. -/
def normalizeDateAt (now : Nat) (raw : String) : Option String :=
  if raw.data.isEmpty then none
  else
    match tryFormats DATE_FORMATS (cleanedDate raw) with
    | some ymd =>
      let parsed : Ymd × Nat := (mkDateJS ymd, now)
      some (formatYmdS parsed.1)
    | none =>
      match jsDateParse (cleanedDate raw) with
      | some n => if n.y > 1990 then some (formatYmdS n) else none
      | none => none

/-- normalizeDate: try the known formats in order, fall back to the generic
parse with the year-1990 guard; null on exhaustion. -/
def normalizeDate (raw : String) : Option String :=
  if raw.data.isEmpty then none
  else
    match tryFormats DATE_FORMATS (cleanedDate raw) with
    | some ymd => some (formatYmdS (mkDateJS ymd))
    | none =>
      match jsDateParse (cleanedDate raw) with
      | some n => if n.y > 1990 then some (formatYmdS n) else none
      | none => none

/-! ## src/utils/normalize.js — normalizeAmount

Floats are modelled as exact rationals; JS parseFloat is modelled on its
finite decimal-literal fragment (optional sign, digits with an optional
fraction, an optional well-formed exponent, trailing garbage ignored). -/

/-- A character removed by .replace(/[₹$€£¥₩,\s]/g, ''). -/
def stripAmt (c : Char) : Bool :=
  c = '₹' || c = '$' || c = '€' || c = '£' || c = '¥' || c = '₩' || c = ',' || isSpaceC c

/-- .replace(/[₹$€£¥₩,\s]/g, ''). -/
def stripChars (l : List Char) : List Char := l.filter (fun c => !stripAmt c)

/-- The removal of one leading minus (.replace with the anchored minus pattern). -/
def dropLeadMinus : List Char → List Char
  | '-' :: r => r
  | l => l

/-- Exponent part of a JS float literal (ignored when malformed, as
parseFloat does). -/
def parseExpPart (m : ℚ) (t : List Char) : ℚ :=
  match t with
  | '-' :: u =>
    let ds := u.takeWhile isDigitC
    if ds.isEmpty then m else m / 10 ^ digitsToNat ds
  | '+' :: u =>
    let ds := u.takeWhile isDigitC
    if ds.isEmpty then m else m * 10 ^ digitsToNat ds
  | _ =>
    let ds := t.takeWhile isDigitC
    if ds.isEmpty then m else m * 10 ^ digitsToNat ds

/-- Unsigned part of a JS float literal: digits with an optional fraction
(at least one digit on either side of the dot), then an optional
exponent. -/
def parseUnsignedQ (l : List Char) : Option ℚ :=
  let ids := l.takeWhile isDigitC
  let r1 := l.dropWhile isDigitC
  let fp : List Char × List Char :=
    match r1 with
    | '.' :: t => (t.takeWhile isDigitC, t.dropWhile isDigitC)
    | _ => ([], r1)
  if ids.isEmpty && fp.1.isEmpty then none
  else
    let mant : ℚ := (digitsToNat ids : ℚ) + (digitsToNat fp.1 : ℚ) / (10 : ℚ) ^ fp.1.length
    some
      (match fp.2 with
       | 'e' :: t => parseExpPart mant t
       | 'E' :: t => parseExpPart mant t
       | _ => mant)

/-- JS parseFloat on its finite decimal-literal fragment. -/
def parseFloatQ (l : List Char) : Option ℚ :=
  match l.dropWhile isSpaceC with
  | '-' :: r => (parseUnsignedQ r).map (fun q => -q)
  | '+' :: r => parseUnsignedQ r
  | l2 => parseUnsignedQ l2

/-- The tail of normalizeAmount after trimming and symbol stripping:
negativity detection (parentheses-wrapped or leading minus), removal of
parentheses and of one leading minus, parse, sign application. -/
def normAmtCore (s1 : List Char) : Option ℚ :=
  let isNeg := (s1.head? = some '(' && s1.getLast? = some ')') || s1.head? = some '-'
  let s2 := s1.filter (fun c => !(c = '(' || c = ')'))
  let s3 := dropLeadMinus s2
  match parseFloatQ s3 with
  | none => none
  | some amount => some (if isNeg then -amount else amount)

/-- normalizeAmount on character lists (the falsy-empty guard, then trim,
strip, sign detection, parse). -/
def normalizeAmountL (l : List Char) : Option ℚ :=
  if l.isEmpty then none
  else normAmtCore (stripChars (jsTrim l))

/-- normalizeAmount on strings. -/
def normalizeAmount (raw : String) : Option ℚ := normalizeAmountL raw.data

/-! ## src/utils/normalize.js — calcConfidence -/

/-- A header field value: string or number (amounts/dates are strings or
rationals; null is the absent Option). -/
inductive FVal where
  | s (v : String)
  | n (v : ℚ)
deriving DecidableEq, Repr

/-- The filled test of calcConfidence: not null, not undefined, not the
empty string. -/
def isFilled : Option FVal → Bool
  | none => false
  | some (.s v) => !(v = "")
  | some (.n _) => true

/-- Math.round(x * 100) / 100 (round half towards positive infinity; every
value this code rounds is nonnegative). -/
def jsRound2 (q : ℚ) : ℚ := ((Rat.floor (q * 100 + 1 / 2) : ℚ)) / 100

/-- calcConfidence: 0.4 weight on overall fill, 0.6 on required-field fill,
rounded to two decimals; 0 on an empty field map.  The float constants
0.4 and 0.6 are modelled as the exact rationals they denote. -/
def calcConfidence (fields : List (String × Option FVal)) (required : List String) : ℚ :=
  if fields.length = 0 then 0
  else
    let filled := (fields.filter (fun p => isFilled p.2)).length
    let requiredFilled := (required.filter (fun k =>
      match fields.find? (fun p => p.1 = k) with
      | some p => isFilled p.2
      | none => false)).length
    let fieldScore : ℚ := (filled : ℚ) / (fields.length : ℚ)
    let requiredScore : ℚ :=
      if required.length > 0 then (requiredFilled : ℚ) / (required.length : ℚ) else 1
    jsRound2 (fieldScore * (2 / 5) + requiredScore * (3 / 5))

/-! ## src/parsers/classifier.js

Every keyword pattern carries the i flag; each is transcribed next to the
original literal, capture groups included — the length of a JS match array
depends on them. -/

/-- A scored keyword: pattern and weight. -/
structure KW where
  re : RE
  weight : Nat

/-- [:\-] -/
def colonDash : RE := .cls false [.one ':', .one '-']

/-- BANK_KEYWORDS, in source order:
/bank\s+statement/i 5; /account\s+(number|no\.?|#)/i 4;
/opening\s+balance/i 5; /closing\s+balance/i 5;
/transaction\s+(date|id|ref)/i 3; /debit/i 3; /credit/i 2;
/available\s+balance/i 4; /statement\s+period/i 4; /IFSC|swift\s+code/i 4;
/account\s+type/i 3; /running\s+balance/i 4; /narration|description/i 2;
/passbook/i 4; /savings\s+account|current\s+account/i 3. -/
def BANK_KEYWORDS : List KW :=
  [⟨seqs [litS "bank", sPlus, litS "statement"], 5⟩,
   ⟨seqs [litS "account", sPlus,
          .grp 1 (alts [litS "number", seqs [litS "no", opt (.ch '.')], .ch '#'])], 4⟩,
   ⟨seqs [litS "opening", sPlus, litS "balance"], 5⟩,
   ⟨seqs [litS "closing", sPlus, litS "balance"], 5⟩,
   ⟨seqs [litS "transaction", sPlus, .grp 1 (alts [litS "date", litS "id", litS "ref"])], 3⟩,
   ⟨litS "debit", 3⟩,
   ⟨litS "credit", 2⟩,
   ⟨seqs [litS "available", sPlus, litS "balance"], 4⟩,
   ⟨seqs [litS "statement", sPlus, litS "period"], 4⟩,
   ⟨alts [litS "IFSC", seqs [litS "swift", sPlus, litS "code"]], 4⟩,
   ⟨seqs [litS "account", sPlus, litS "type"], 3⟩,
   ⟨seqs [litS "running", sPlus, litS "balance"], 4⟩,
   ⟨alts [litS "narration", litS "description"], 2⟩,
   ⟨litS "passbook", 4⟩,
   ⟨alts [seqs [litS "savings", sPlus, litS "account"],
          seqs [litS "current", sPlus, litS "account"]], 3⟩]

/-- TAX_KEYWORDS, in source order:
/form\s+(26as|16|16a)/i 6; /tax\s+deducted\s+at\s+source|TDS/i 6;
/income\s+tax/i 4; /deductor/i 6; /PAN\s+(of\s+)?(deductee|deductor)/i 5;
/TAN/i 4; /section\s+\d+[A-Z]?/i 3; /status\s+of\s+booking/i 5;
/total\s+tax\s+deducted/i 5; /TDS\s+deposited/i 5;
/amount\s+paid.*credited/i 4; /date\s+of\s+booking/i 4; /traces|NSDL/i 4;
/assessment\s+year/i 5. -/
def TAX_KEYWORDS : List KW :=
  [⟨seqs [litS "form", sPlus, .grp 1 (alts [litS "26as", litS "16", litS "16a"])], 6⟩,
   ⟨alts [seqs [litS "tax", sPlus, litS "deducted", sPlus, litS "at", sPlus, litS "source"],
          litS "TDS"], 6⟩,
   ⟨seqs [litS "income", sPlus, litS "tax"], 4⟩,
   ⟨litS "deductor", 6⟩,
   ⟨seqs [litS "PAN", sPlus, opt (.grp 1 (seqs [litS "of", sPlus])),
          .grp 2 (alts [litS "deductee", litS "deductor"])], 5⟩,
   ⟨litS "TAN", 4⟩,
   ⟨seqs [litS "section", sPlus, plus1 dCls, opt (.cls false [.range 'A' 'Z'])], 3⟩,
   ⟨seqs [litS "status", sPlus, litS "of", sPlus, litS "booking"], 5⟩,
   ⟨seqs [litS "total", sPlus, litS "tax", sPlus, litS "deducted"], 5⟩,
   ⟨seqs [litS "TDS", sPlus, litS "deposited"], 5⟩,
   ⟨seqs [litS "amount", sPlus, litS "paid", .star .dot, litS "credited"], 4⟩,
   ⟨seqs [litS "date", sPlus, litS "of", sPlus, litS "booking"], 4⟩,
   ⟨alts [litS "traces", litS "NSDL"], 4⟩,
   ⟨seqs [litS "assessment", sPlus, litS "year"], 5⟩]

/-- The length of (text.match(pattern) || []) for a NON-GLOBAL pattern, as
the classifier computes it: String.prototype.match without the g flag
returns at most the first match as an array [whole, ...captures], whose
length is 1 plus the number of capture groups of the pattern (undefined
groups included), or the empty array's 0 when nothing matches.  It is not
the number of occurrences of the pattern in the text. -/
def jsMatchLen (re : RE) (l : List Char) : Nat :=
  if reTest true re l then 1 + countGroups re else 0

/-- The number of occurrences of a pattern in the text (what a global match
would count); used to state the scoring claim. -/
def countOccurrences (ci : Bool) (re : RE) (l : List Char) : Nat :=
  (reFindAll ci re l).length

/-- scoreText: reduce over the keywords, adding min(matches, 2) * weight
where matches is the match-array length above. -/
def scoreText (text : List Char) (keywords : List KW) : Nat :=
  keywords.foldl (fun score kw => score + min (jsMatchLen kw.re text) 2 * kw.weight) 0

/-- Filename hint /bank|statement|passbook/ (tested on the lowercased
filename). -/
def reFnBank : RE := alts [litS "bank", litS "statement", litS "passbook"]

/-- Filename hint /26as|tds|tax|form16/ (tested on the lowercased
filename). -/
def reFnTax : RE := alts [litS "26as", litS "tds", litS "tax", litS "form16"]

/-- The classifier verdict; the unknown branch returns only the type and
confidence (no score fields on the result object). -/
structure Verdict where
  documentType : String
  confidence : ℚ
  bankScore : Option Nat
  taxScore : Option Nat
deriving DecidableEq, Repr

/-- classifyDocument: keyword scores plus filename bonuses; below the fixed
threshold 8 the verdict is unknown with confidence 0; otherwise bank wins
ties (>=) and confidence is min(0.99, winner / (winner + loser + 1)),
rounded to two decimals.  The float 0.99 is modelled as the exact rational
99/100. -/
def classifyDocument (text : String) (filename : String) : Verdict :=
  let bankScore := scoreText text.data BANK_KEYWORDS
  let taxScore := scoreText text.data TAX_KEYWORDS
  let fn := toLowerL filename.data
  let bankBonus := if reTest false reFnBank fn then 10 else 0
  let taxBonus := if reTest false reFnTax fn then 10 else 0
  let totalBank := bankScore + bankBonus
  let totalTax := taxScore + taxBonus
  let maxScore := max totalBank totalTax
  if maxScore < 8 then ⟨"unknown", 0, none, none⟩
  else
    let documentType := if totalBank ≥ totalTax then "bank_statement" else "tax_statement"
    let winnerScore := if documentType = "bank_statement" then totalBank else totalTax
    let loserScore := if documentType = "bank_statement" then totalTax else totalBank
    let confidence : ℚ :=
      min (99 / 100) ((winnerScore : ℚ) / ((winnerScore : ℚ) + (loserScore : ℚ) + 1))
    ⟨documentType, jsRound2 confidence, some totalBank, some totalTax⟩

/-! ## src/parsers/bankParser.js

The date-normalizer parameter nd abstracts normalizeDate: the source calls
normalizeDate, which hands the clock reading new Date() to date-fns as the
reference date; the pipeline instantiates nd with normalizeDate (or, with
the clock made explicit, normalizeDateAt now), and the determinism theorem
shows the instantiation does not matter. -/

/-- A warning record. -/
structure Warning where
  code : String
  message : String
deriving DecidableEq, Repr

/-- NO_TABLE_HEADER warning of extractTransactions. -/
def wNoTableHeader : Warning :=
  ⟨"NO_TABLE_HEADER", "Could not find transaction table header row."⟩

/-- HEURISTIC_PARSING warning pushed by parseTransactionHeuristic. -/
def wHeuristicParsing : Warning :=
  ⟨"HEURISTIC_PARSING", "Using heuristic transaction parsing — accuracy may be reduced."⟩

/-- NO_TRANSACTIONS warning of extractBankStatement. -/
def wNoTransactions : Warning :=
  ⟨"NO_TRANSACTIONS", "No transaction rows could be extracted from this document."⟩

/-- NO_DEDUCTORS warning of extractTaxStatement. -/
def wNoDeductors : Warning :=
  ⟨"NO_DEDUCTORS", "No deductor/TDS sections could be extracted."⟩

/-- UNKNOWN_DOCUMENT_TYPE warning of the processor. -/
def wUnknownDocType : Warning :=
  ⟨"UNKNOWN_DOCUMENT_TYPE", "Could not confidently classify document type. Attempting generic extraction."⟩

/-- A bank transaction record.  The source's row parser also stores the raw
line under the debug key _raw; heuristic-mode records have no such key
(rawLine is none there). -/
structure BankTxn where
  date : Option String
  description : Option String
  debit : Option ℚ
  credit : Option ℚ
  balance : Option ℚ
  reference : Option String
  rawLine : Option String
deriving DecidableEq, Repr

/-- The bank statement header; branch is declared but never assigned by the
source, and currency is initialised to 'INR'. -/
structure BankHeader where
  bank_name : Option String
  account_number : Option String
  account_holder_name : Option String
  account_type : Option String
  ifsc_code : Option String
  branch : Option String
  statement_period_from : Option String
  statement_period_to : Option String
  opening_balance : Option ℚ
  closing_balance : Option ℚ
  currency : String
deriving DecidableEq, Repr

/-! ### Bank patterns -/

/-- Header pattern 1:
/date.*(?:narration|description|particulars).*(?:debit|dr).*(?:credit|cr)/i -/
def reHP1 : RE :=
  seqs [litS "date", .star .dot,
        alts [litS "narration", litS "description", litS "particulars"], .star .dot,
        alts [litS "debit", litS "dr"], .star .dot,
        alts [litS "credit", litS "cr"]]

/-- Header pattern 2:
/date.*(?:details|description).*(?:withdrawal|debit).*(?:deposit|credit)/i -/
def reHP2 : RE :=
  seqs [litS "date", .star .dot,
        alts [litS "details", litS "description"], .star .dot,
        alts [litS "withdrawal", litS "debit"], .star .dot,
        alts [litS "deposit", litS "credit"]]

/-- Header pattern 3: /txn.*date.*description/i -/
def reHP3 : RE :=
  seqs [litS "txn", .star .dot, litS "date", .star .dot, litS "description"]

/-- Summary stop: /total|closing\s+balance|opening\s+balance|grand\s+total/i -/
def reSummaryStop : RE :=
  alts [litS "total",
        seqs [litS "closing", sPlus, litS "balance"],
        seqs [litS "opening", sPlus, litS "balance"],
        seqs [litS "grand", sPlus, litS "total"]]

/-- Separator line: /^[-=_|*\s]+$/ -/
def reSepLine : RE :=
  seqs [.bos,
        plus1 (.cls false [.one '-', .one '=', .one '_', .one '|', .one '*', .space]),
        .eos]

/-- Row candidate date: /\d{1,2}[\/\-]\d{1,2}[\/\-]\d{2,4}/ (the source
writes the two-character class as slash dash, without a dot). -/
def reCandDate1 : RE :=
  seqs [dRep 1 2, .cls false [.one '/', .one '-'],
        dRep 1 2, .cls false [.one '/', .one '-'], dRep 2 4]

/-- Row candidate date, textual month: /\d{1,2}\s+[A-Za-z]{3}\s+\d{4}/ -/
def reCandDate2 : RE :=
  seqs [dRep 1 2, sPlus, .rep 3 (some 3) (.cls false [.range 'A' 'Z', .range 'a' 'z']),
        sPlus, dRep 4 4]

/-- Row date with its capture:
/(\d{1,2}[\/\-\.]\d{1,2}[\/\-\.]\d{2,4}|\d{1,2}\s+[A-Za-z]{3}\s+\d{4})/ -/
def reRowDate : RE :=
  .grp 1 (.alt
    (seqs [dRep 1 2, .cls false [.one '/', .one '-', .one '.'],
           dRep 1 2, .cls false [.one '/', .one '-', .one '.'], dRep 2 4])
    (seqs [dRep 1 2, sPlus, .rep 3 (some 3) (.cls false [.range 'A' 'Z', .range 'a' 'z']),
           sPlus, dRep 4 4]))

/-- Row amount: /([₹$]?\s*[\d,]+\.\d{2})/g -/
def reAmtPat : RE :=
  .grp 1 (seqs [opt (.cls false [.one '₹', .one '$']), sStar,
                plus1 (.cls false [.digit, .one ',']), .ch '.', dRep 2 2])

/-- Debit-context keyword: /dr|debit|withdrawal/i -/
def reDebitKw : RE := alts [litS "dr", litS "debit", litS "withdrawal"]

/-- Credit-context keyword: /cr|credit|deposit/i -/
def reCreditKw : RE := alts [litS "cr", litS "credit", litS "deposit"]

/-- Reference: /(?:ref|txn|chq|utr)[:\s#]*([A-Z0-9]{8,20})/i -/
def reRefPat : RE :=
  seqs [alts [litS "ref", litS "txn", litS "chq", litS "utr"],
        .star (.cls false [.one ':', .space, .one '#']),
        .grp 1 (.rep 8 (some 20) (.cls false [.range 'A' 'Z', .range '0' '9']))]

/-- Heuristic date: /(\d{1,2}[\/\-\.]\d{1,2}[\/\-\.]\d{2,4})/ -/
def reHeurDate : RE :=
  .grp 1 (seqs [dRep 1 2, .cls false [.one '/', .one '-', .one '.'],
                dRep 1 2, .cls false [.one '/', .one '-', .one '.'], dRep 2 4])

/-- Heuristic amount: /[\d,]+\.\d{2}/g -/
def reHeurAmt : RE :=
  seqs [plus1 (.cls false [.digit, .one ',']), .ch '.', dRep 2 2]

/-- Column split: /\s{2,}|\t/ -/
def reColSplit : RE := .alt (.rep 2 none sCls) (.ch '\t')

/-- Column token test /date/. -/
def reColDate : RE := litS "date"

/-- Column token test /narration|description|particulars|details/. -/
def reColDesc : RE :=
  alts [litS "narration", litS "description", litS "particulars", litS "details"]

/-- Column token test /debit|withdrawal|dr/. -/
def reColDebit : RE := alts [litS "debit", litS "withdrawal", litS "dr"]

/-- Column token test /credit|deposit|cr/. -/
def reColCredit : RE := alts [litS "credit", litS "deposit", litS "cr"]

/-- Column token test /balance/. -/
def reColBalance : RE := litS "balance"

/-- Column token test /ref|id|chq|cheque/. -/
def reColRef : RE := alts [litS "ref", litS "id", litS "chq", litS "cheque"]

/-! ### Bank header patterns -/

/-- Bank name (no i flag):
/([A-Z][A-Za-z\s]+(?:Bank|BANK|banking|BANKING)[A-Za-z\s]*)/ -/
def reBankName : RE :=
  .grp 1 (seqs [.cls false [.range 'A' 'Z'],
                plus1 (.cls false [.range 'A' 'Z', .range 'a' 'z', .space]),
                alts [litS "Bank", litS "BANK", litS "banking", litS "BANKING"],
                .star (.cls false [.range 'A' 'Z', .range 'a' 'z', .space])])

/-- Account number digits: (\d[\d\s\-]{5,20}) -/
def reAcctDigits : RE :=
  .grp 1 (seqs [dCls, .rep 5 (some 20) (.cls false [.digit, .space, .one '-'])])

/-- /account\s+(?:number|no\.?|#)\s*[:\-]?\s*(\d[\d\s\-]{5,20})/i -/
def reAcct1 : RE :=
  seqs [litS "account", sPlus,
        alts [litS "number", seqs [litS "no", opt (.ch '.')], .ch '#'],
        sStar, opt colonDash, sStar, reAcctDigits]

/-- /a\/c\s+(?:no\.?|number|#)\s*[:\-]?\s*(\d[\d\s\-]{5,20})/i -/
def reAcct2 : RE :=
  seqs [litS "a/c", sPlus,
        alts [seqs [litS "no", opt (.ch '.')], litS "number", .ch '#'],
        sStar, opt colonDash, sStar, reAcctDigits]

/-- /acc(?:ount)?\s*no[.:]?\s*(\d[\d\s\-]{5,20})/i -/
def reAcct3 : RE :=
  seqs [litS "acc", opt (litS "ount"), sStar, litS "no",
        opt (.cls false [.one '.', .one ':']), sStar, reAcctDigits]

/-- Name capture: ([A-Z][a-zA-Z\s\.]+) -/
def reNameCap : RE :=
  .grp 1 (seqs [.cls false [.range 'A' 'Z'],
                plus1 (.cls false [.range 'a' 'z', .range 'A' 'Z', .space, .one '.'])])

/-- /(?:account\s+holder|customer\s+name|name)\s*[:\-]?\s*([A-Z][a-zA-Z\s\.]+)/i -/
def reName1 : RE :=
  seqs [alts [seqs [litS "account", sPlus, litS "holder"],
              seqs [litS "customer", sPlus, litS "name"],
              litS "name"],
        sStar, opt colonDash, sStar, reNameCap]

/-- /in\s+the\s+name\s+of\s*[:\-]?\s*([A-Z][a-zA-Z\s\.]+)/i -/
def reName2 : RE :=
  seqs [litS "in", sPlus, litS "the", sPlus, litS "name", sPlus, litS "of",
        sStar, opt colonDash, sStar, reNameCap]

/-- /(savings|current|salary|nre|nro|fixed\s+deposit)\s*account/i -/
def reAcctType : RE :=
  seqs [.grp 1 (alts [litS "savings", litS "current", litS "salary",
                      litS "nre", litS "nro", seqs [litS "fixed", sPlus, litS "deposit"]]),
        sStar, litS "account"]

/-- /IFSC\s*[:\-]?\s*([A-Z]{4}0[A-Z0-9]{6})/i -/
def reIfsc : RE :=
  seqs [litS "IFSC", sStar, opt colonDash, sStar,
        .grp 1 (seqs [.rep 4 (some 4) (.cls false [.range 'A' 'Z']), .ch '0',
                      .rep 6 (some 6) (.cls false [.range 'A' 'Z', .range '0' '9'])])]

/-- The class [\d\/\-\.] of period pattern 1. -/
def dateSepCls : RE := .cls false [.digit, .one '/', .one '-', .one '.']

/-- Period pattern 1:
/(?:statement|from)\s+(?:period|date)\s*[:\-]?\s*([\d\/\-\.]+\s*(?:to|[-–])\s*[\d\/\-\.]+)/i -/
def rePeriod1 : RE :=
  seqs [alts [litS "statement", litS "from"], sPlus,
        alts [litS "period", litS "date"], sStar, opt colonDash, sStar,
        .grp 1 (seqs [plus1 dateSepCls, sStar,
                      alts [litS "to", .cls false [.one '-', .one '–']], sStar,
                      plus1 dateSepCls])]

/-- The class [\d\/\-\.a-zA-Z] of period patterns 2 and 3. -/
def periodTokCls : RE :=
  .cls false [.digit, .one '/', .one '-', .one '.', .range 'a' 'z', .range 'A' 'Z']

/-- Period pattern 2: /period\s*[:\-]?\s*([\d\/\-\.a-zA-Z]+)\s+to\s+([\d\/\-\.a-zA-Z]+)/i -/
def rePeriod2 : RE :=
  seqs [litS "period", sStar, opt colonDash, sStar,
        .grp 1 (plus1 periodTokCls), sPlus, litS "to", sPlus,
        .grp 2 (plus1 periodTokCls)]

/-- Period pattern 3: /from\s*[:\-]?\s*([\d\/\-\.a-zA-Z]+)\s+to\s+([\d\/\-\.a-zA-Z]+)/i -/
def rePeriod3 : RE :=
  seqs [litS "from", sStar, opt colonDash, sStar,
        .grp 1 (plus1 periodTokCls), sPlus, litS "to", sPlus,
        .grp 2 (plus1 periodTokCls)]

/-- The period range split: /\s+to\s+|[-–]/i -/
def rePeriodSplit : RE :=
  .alt (seqs [sPlus, litS "to", sPlus]) (.cls false [.one '-', .one '–'])

/-- Balance amount capture: ([₹$]?\s*[\d,\.]+(?:\.\d{2})?) -/
def reBalCap : RE :=
  .grp 1 (seqs [opt (.cls false [.one '₹', .one '$']), sStar,
                plus1 (.cls false [.digit, .one ',', .one '.']),
                opt (seqs [.ch '.', dRep 2 2])])

/-- Short balance amount capture: ([₹$]?\s*[\d,\.]+) -/
def reBalCapShort : RE :=
  .grp 1 (seqs [opt (.cls false [.one '₹', .one '$']), sStar,
                plus1 (.cls false [.digit, .one ',', .one '.'])])

/-- /opening\s+balance\s*[:\-]?\s*([₹$]?\s*[\d,\.]+(?:\.\d{2})?)/i -/
def reOpenBal1 : RE :=
  seqs [litS "opening", sPlus, litS "balance", sStar, opt colonDash, sStar, reBalCap]

/-- /balance\s+b\/f\s*[:\-]?\s*([₹$]?\s*[\d,\.]+)/i -/
def reOpenBal2 : RE :=
  seqs [litS "balance", sPlus, litS "b/f", sStar, opt colonDash, sStar, reBalCapShort]

/-- /closing\s+balance\s*[:\-]?\s*([₹$]?\s*[\d,\.]+(?:\.\d{2})?)/i -/
def reCloseBal1 : RE :=
  seqs [litS "closing", sPlus, litS "balance", sStar, opt colonDash, sStar, reBalCap]

/-- /balance\s+c\/f\s*[:\-]?\s*([₹$]?\s*[\d,\.]+)/i -/
def reCloseBal2 : RE :=
  seqs [litS "balance", sPlus, litS "c/f", sStar, opt colonDash, sStar, reBalCapShort]

/-- Currency tests (no i flag): /₹|INR/, /\$|USD/, /£|GBP/, /€|EUR/. -/
def reCurInr : RE := .alt (.ch '₹') (litS "INR")

/-- /\$|USD/ -/
def reCurUsd : RE := .alt (.ch '$') (litS "USD")

/-- /£|GBP/ -/
def reCurGbp : RE := .alt (.ch '£') (litS "GBP")

/-- /€|EUR/ -/
def reCurEur : RE := .alt (.ch '€') (litS "EUR")

/-! ### Bank parsing functions -/

/-- JS x || null on an optional number: both null/undefined and 0 are falsy
and give null. -/
def jsOrNull (o : Option ℚ) : Option ℚ :=
  match o with
  | some v => if v = 0 then none else some v
  | none => none

/-- amounts[i] || null for a possibly missing index (heuristic mode). -/
def idxOrNull (l : List (Option ℚ)) (i : Nat) : Option ℚ :=
  match l.get? i with
  | some v => jsOrNull v
  | none => none

/-- amounts[i] ?? null for a possibly missing index (tax rows): nullish
coalescing keeps 0. -/
def idxNull (l : List (Option ℚ)) (i : Nat) : Option ℚ :=
  (l.get? i).bind id

/-- The indexed value access amounts[i].value on the bank row's
(value, index) pairs; none models an undefined access. -/
def amtVal (amounts : List (Option ℚ × Nat)) (i : Nat) : Option ℚ :=
  match amounts.get? i with
  | some a => a.1
  | none => none

/-- The detected column map of the table header line. -/
structure ColMap where
  date : Option Nat
  description : Option Nat
  debit : Option Nat
  credit : Option Nat
  balance : Option Nat
  reference : Option Nat
deriving DecidableEq, Repr

/-- detectColumns: split the header line on runs of two or more spaces or a
tab, then classify each token (lowercased) by the first matching name
test, keeping its position. -/
def detectColumns (headerLine : List Char) : ColMap :=
  let tokens := reSplit false reColSplit headerLine
  (tokens.foldl (fun (acc : ColMap × Nat) token =>
    let lower := toLowerL token
    let cm := acc.1
    let cm2 :=
      if reTest false reColDate lower then { cm with date := some acc.2 }
      else if reTest false reColDesc lower then { cm with description := some acc.2 }
      else if reTest false reColDebit lower then { cm with debit := some acc.2 }
      else if reTest false reColCredit lower then { cm with credit := some acc.2 }
      else if reTest false reColBalance lower then { cm with balance := some acc.2 }
      else if reTest false reColRef lower then { cm with reference := some acc.2 }
      else cm
    (cm2, acc.2 + 1)) (⟨none, none, none, none, none, none⟩, 0)).1

/-- parseTransactionRow: date, amounts with their indices, description
between the date and the first amount, then the amount-count decision
table (3+ positional with || null; 2 by debit/credit context keyword,
defaulting to debit; 1 balance only), and a labeled reference.  The colMap
and lineIdx parameters are received but, as in the source, not used. -/
def parseTransactionRow (nd : String → Option String) (line : List Char)
    (colMap : ColMap) (lineIdx : Nat) : Option BankTxn :=
  match reFind false reRowDate line with
  | none => none
  | some dm =>
    match nd (String.mk ((capGet dm 1).getD [])) with
    | none => none
    | some date =>
      let amounts := (reFindAll false reAmtPat line).map
        (fun m => (normalizeAmount (String.mk ((capGet m 1).getD [])), m.idx))
      let dateEnd := dm.idx + dm.mat.length
      let firstAmtIdx :=
        match amounts.head? with
        | some a => a.2
        | none => line.length
      let description := wsRunsToSpace (jsTrim ((line.drop dateEnd).take (firstAmtIdx - dateEnd)))
      let dcb : Option ℚ × Option ℚ × Option ℚ :=
        if amounts.length ≥ 3 then
          (jsOrNull (amtVal amounts 0), jsOrNull (amtVal amounts 1), jsOrNull (amtVal amounts 2))
        else if amounts.length = 2 then
          if reTest true reDebitKw line then (amtVal amounts 0, none, amtVal amounts 1)
          else if reTest true reCreditKw line then (none, amtVal amounts 0, amtVal amounts 1)
          else (amtVal amounts 0, none, amtVal amounts 1)
        else if amounts.length = 1 then (none, none, amtVal amounts 0)
        else (none, none, none)
      let reference := ((reFind true reRefPat line).bind (fun m => capGet m 1)).map String.mk
      some { date := some date,
             description := if description.isEmpty then none else some (String.mk description),
             debit := dcb.1,
             credit := dcb.2.1,
             balance := dcb.2.2,
             reference := reference,
             rawLine := some (String.mk line) }

/-- One line of parseTransactionHeuristic's loop: a line with a date token
and at least one two-decimal monetary token becomes a transaction, its
amounts assigned positionally through || null; other lines are skipped. -/
def parseHeurLine (nd : String → Option String) (line : List Char) : Option BankTxn :=
  match reFind false reHeurDate line with
  | none => none
  | some dm =>
    let amounts := (reFindAll false reHeurAmt line).map
      (fun m => normalizeAmount (String.mk m.mat))
    if amounts.isEmpty then none
    else
      let descr := jsTrim ((line.drop (dm.idx + dm.mat.length)).filter
        (fun c => !(isDigitC c || c = ',' || c = '.')))
      some { date := nd (String.mk ((capGet dm 1).getD [])),
             description := if descr.isEmpty then none else some (String.mk descr),
             debit := idxOrNull amounts 0,
             credit := idxOrNull amounts 1,
             balance := idxOrNull amounts 2,
             reference := none,
             rawLine := none }

/-- parseTransactionHeuristic's transaction list (its HEURISTIC_PARSING
warning push is accounted for in extractTransactions' warning list). -/
def parseTransactionHeuristic (nd : String → Option String)
    (lines : List (List Char)) : List BankTxn :=
  lines.filterMap (parseHeurLine nd)

/-- The table-header search: each header pattern is tried over all lines in
turn, the first one with a hit wins. -/
def findHeaderIdx (lines : List (List Char)) : Option Nat :=
  match lines.findIdx? (fun l => reTest true reHP1 l) with
  | some i => some i
  | none =>
    match lines.findIdx? (fun l => reTest true reHP2 l) with
    | some i => some i
    | none => lines.findIdx? (fun l => reTest true reHP3 l)

/-- The row scan after the header: stop at a summary line, skip separator
lines and lines without a date token, parse the rest. -/
def scanRows (nd : String → Option String) (colMap : ColMap) :
    List (List Char) → Nat → List BankTxn
  | [], _ => []
  | line :: rest, i =>
    if reTest true reSummaryStop line then []
    else if reTest false reSepLine line then scanRows nd colMap rest (i + 1)
    else if !reTest false reCandDate1 line && !reTest false reCandDate2 line then
      scanRows nd colMap rest (i + 1)
    else
      match parseTransactionRow nd line colMap i with
      | some t => t :: scanRows nd colMap rest (i + 1)
      | none => scanRows nd colMap rest (i + 1)

/-- extractTransactions: find a header line; with none, warn NO_TABLE_HEADER
and fall back to the heuristic scanner (which warns HEURISTIC_PARSING);
with one, derive the column map and scan the following rows.  The fullText
parameter is received but, as in the source, not used. -/
def extractTransactions (nd : String → Option String) (lines : List (List Char))
    (fullText : List Char) : List BankTxn × List Warning :=
  match findHeaderIdx lines with
  | none =>
    (parseTransactionHeuristic nd lines, [wNoTableHeader, wHeuristicParsing])
  | some hIdx =>
    let colMap := detectColumns ((lines.get? hIdx).getD [])
    (scanRows nd colMap (lines.drop (hIdx + 1)) (hIdx + 1), [])

/-- First pattern of a list to match the text (the source's
for-match-break loops; an assignment made by the winning pattern is kept
even when its post-processing yields null). -/
def firstFind (pats : List RE) (text : List Char) : Option MRes :=
  match pats with
  | [] => none
  | p :: ps =>
    match reFind true p text with
    | some m => some m
    | none => firstFind ps text

/-- Truthiness of a capture (undefined or empty is falsy). -/
def jsTruthyCap (o : Option (List Char)) : Bool :=
  match o with
  | some l => !l.isEmpty
  | none => false

/-- One iteration of the statement-period loop body: on a match, either use
the two captures directly (when the second participates), or split the
single capture on the range separator and use its two parts when there are
exactly two; otherwise leave the fields as they were. -/
def periodStep (nd : String → Option String) (text : List Char) (re : RE)
    (st : Option String × Option String) : Option String × Option String :=
  match reFind true re text with
  | none => st
  | some m =>
    if jsTruthyCap (capGet m 2) then
      (nd (String.mk ((capGet m 1).getD [])), nd (String.mk ((capGet m 2).getD [])))
    else
      let parts := reSplit true rePeriodSplit ((capGet m 1).getD [])
      if parts.length = 2 then
        (nd (String.mk ((parts.get? 0).getD [])), nd (String.mk ((parts.get? 1).getD [])))
      else st

/-- The statement-period loop: run the patterns in order, stopping as soon
as the from-field is set. -/
def periodLoop (nd : String → Option String) (text : List Char) :
    List RE → Option String × Option String → Option String × Option String
  | [], st => st
  | re :: res, st =>
    let st2 := periodStep nd text re st
    if st2.1.isSome then st2 else periodLoop nd text res st2

/-- extractHeader of the bank parser: independent first-match label
searches over the cleaned full text; the lines parameter is received but,
as in the source, not used (and nothing is pushed onto warnings). -/
def extractHeader (nd : String → Option String) (text : List Char)
    (lines : List (List Char)) : BankHeader :=
  let period := periodLoop nd text [rePeriod1, rePeriod2, rePeriod3] (none, none)
  { bank_name := (reFind false reBankName text).bind
      (fun m => (capGet m 1).map (fun c => String.mk (jsTrim c))),
    account_number := (firstFind [reAcct1, reAcct2, reAcct3] text).bind
      (fun m => (capGet m 1).map (fun c => String.mk (c.filter (fun ch => !isSpaceC ch)))),
    account_holder_name := (firstFind [reName1, reName2] text).bind
      (fun m => (capGet m 1).map (fun c => String.mk (jsTrim c))),
    account_type := (reFind true reAcctType text).bind
      (fun m => (capGet m 1).map (fun c => String.mk (toLowerL c))),
    ifsc_code := (reFind true reIfsc text).bind
      (fun m => (capGet m 1).map (fun c => String.mk (toUpperL c))),
    branch := none,
    statement_period_from := period.1,
    statement_period_to := period.2,
    opening_balance := ((firstFind [reOpenBal1, reOpenBal2] text).bind
      (fun m => capGet m 1)).bind (fun c => normalizeAmount (String.mk c)),
    closing_balance := ((firstFind [reCloseBal1, reCloseBal2] text).bind
      (fun m => capGet m 1)).bind (fun c => normalizeAmount (String.mk c)),
    currency :=
      if reTest false reCurInr text then "INR"
      else if reTest false reCurUsd text then "USD"
      else if reTest false reCurGbp text then "GBP"
      else if reTest false reCurEur text then "EUR"
      else "INR" }

/-- The bank header as calcConfidence's field map, in declaration order. -/
def bankHeaderFields (h : BankHeader) : List (String × Option FVal) :=
  [("bank_name", h.bank_name.map FVal.s),
   ("account_number", h.account_number.map FVal.s),
   ("account_holder_name", h.account_holder_name.map FVal.s),
   ("account_type", h.account_type.map FVal.s),
   ("ifsc_code", h.ifsc_code.map FVal.s),
   ("branch", h.branch.map FVal.s),
   ("statement_period_from", h.statement_period_from.map FVal.s),
   ("statement_period_to", h.statement_period_to.map FVal.s),
   ("opening_balance", h.opening_balance.map FVal.n),
   ("closing_balance", h.closing_balance.map FVal.n),
   ("currency", some (FVal.s h.currency))]

/-! ## src/parsers/taxParser.js -/

/-- A TDS transaction row.  The source's field named section is called sec
here because section is a Lean keyword; all other names match the source. -/
structure TaxTxn where
  sec : Option String
  transaction_date : Option String
  booking_date : Option String
  status_of_booking : Option String
  remarks : Option String
  amount_paid_credited : Option ℚ
  tax_deducted : Option ℚ
  tds_deposited : Option ℚ
deriving DecidableEq, Repr

/-- A deductor block record. -/
structure Deductor where
  name : Option String
  tan : Option String
  pan : Option String
  total_amount_paid_credited : Option ℚ
  total_tax_deducted : Option ℚ
  total_tds_deposited : Option ℚ
  transactions : List TaxTxn
deriving DecidableEq, Repr

/-- The tax statement header; taxpayer_address is declared but never
assigned by the source. -/
structure TaxHeader where
  form_type : Option String
  assessment_year : Option String
  taxpayer_name : Option String
  pan : Option String
  taxpayer_address : Option String
  total_amount_paid_credited : Option ℚ
  total_tax_deducted : Option ℚ
  total_tds_deposited : Option ℚ
deriving DecidableEq, Repr

/-! ### Tax patterns -/

/-- /form\s+(26as|16a?|27d)/i -/
def reFormType : RE :=
  seqs [litS "form", sPlus,
        .grp 1 (alts [litS "26as", seqs [litS "16", opt (.ch 'a')], litS "27d"])]

/-- /assessment\s+year\s*[:\-]?\s*(\d{4}\s*[-–]\s*\d{2,4})/i -/
def reAy : RE :=
  seqs [litS "assessment", sPlus, litS "year", sStar, opt colonDash, sStar,
        .grp 1 (seqs [dRep 4 4, sStar, .cls false [.one '-', .one '–'], sStar, dRep 2 4])]

/-- PAN capture: ([A-Z]{5}\d{4}[A-Z]) -/
def rePanCap : RE :=
  .grp 1 (seqs [.rep 5 (some 5) (.cls false [.range 'A' 'Z']), dRep 4 4,
                .cls false [.range 'A' 'Z']])

/-- /PAN\s*(?:of\s+(?:taxpayer|deductee))?\s*[:\-]?\s*([A-Z]{5}\d{4}[A-Z])/i -/
def rePanHdr : RE :=
  seqs [litS "PAN", sStar,
        opt (seqs [litS "of", sPlus, alts [litS "taxpayer", litS "deductee"]]),
        sStar, opt colonDash, sStar, rePanCap]

/-- /(?:name\s+of\s+(?:taxpayer|deductee|assessee)|taxpayer\s+name)\s*[:\-]?\s*([A-Z][a-zA-Z\s\.]+)/i -/
def reTaxName1 : RE :=
  seqs [alts [seqs [litS "name", sPlus, litS "of", sPlus,
                    alts [litS "taxpayer", litS "deductee", litS "assessee"]],
              seqs [litS "taxpayer", sPlus, litS "name"]],
        sStar, opt colonDash, sStar, reNameCap]

/-- /assessee\s+name\s*[:\-]?\s*([A-Z][a-zA-Z\s\.]+)/i -/
def reTaxName2 : RE :=
  seqs [litS "assessee", sPlus, litS "name", sStar, opt colonDash, sStar, reNameCap]

/-- Total amount capture: ([₹$]?\s*[\d,\.]+) -/
def reTotCap : RE := reBalCapShort

/-- Header totals: /total\s+(?:amount\s+)?paid\s*[\/]?\s*credited\s*[:\-]?\s*([₹$]?\s*[\d,\.]+)/i -/
def reHdrPaid : RE :=
  seqs [litS "total", sPlus, opt (seqs [litS "amount", sPlus]), litS "paid",
        sStar, opt (.ch '/'), sStar, litS "credited", sStar, opt colonDash, sStar, reTotCap]

/-- /total\s+tax\s+deducted\s*[:\-]?\s*([₹$]?\s*[\d,\.]+)/i -/
def reTaxDedTot : RE :=
  seqs [litS "total", sPlus, litS "tax", sPlus, litS "deducted",
        sStar, opt colonDash, sStar, reTotCap]

/-- /total\s+TDS\s+deposited\s*[:\-]?\s*([₹$]?\s*[\d,\.]+)/i -/
def reTdsDepTot : RE :=
  seqs [litS "total", sPlus, litS "TDS", sPlus, litS "deposited",
        sStar, opt colonDash, sStar, reTotCap]

/-- Deductor-section start pattern 1: /name\s+of\s+deductor/i -/
def reDedStart1 : RE := seqs [litS "name", sPlus, litS "of", sPlus, litS "deductor"]

/-- Deductor-section start pattern 2: /deductor\s+(?:name|details)/i -/
def reDedStart2 : RE :=
  seqs [litS "deductor", sPlus, alts [litS "name", litS "details"]]

/-- Deductor-section start pattern 3: /(?:Part|Section)\s+[AB]\s*[-–:]/i -/
def reDedStart3 : RE :=
  seqs [alts [litS "Part", litS "Section"], sPlus, .cls false [.one 'A', .one 'B'],
        sStar, .cls false [.one '-', .one '–', .one ':']]

/-- /name\s+of\s+deductor\s*[:\-]?\s*([A-Z][^\n\r]{2,60})/i -/
def reDedName : RE :=
  seqs [litS "name", sPlus, litS "of", sPlus, litS "deductor",
        sStar, opt colonDash, sStar,
        .grp 1 (seqs [.cls false [.range 'A' 'Z'],
                      .rep 2 (some 60) (.cls true [.one '\n', .one '\r'])])]

/-- /TAN\s*(?:of\s+deductor)?\s*[:\-]?\s*([A-Z]{4}\d{5}[A-Z])/i -/
def reDedTan : RE :=
  seqs [litS "TAN", sStar, opt (seqs [litS "of", sPlus, litS "deductor"]),
        sStar, opt colonDash, sStar,
        .grp 1 (seqs [.rep 4 (some 4) (.cls false [.range 'A' 'Z']), dRep 5 5,
                      .cls false [.range 'A' 'Z']])]

/-- /PAN\s+of\s+deductor\s*[:\-]?\s*([A-Z]{5}\d{4}[A-Z])/i -/
def reDedPan : RE :=
  seqs [litS "PAN", sPlus, litS "of", sPlus, litS "deductor",
        sStar, opt colonDash, sStar, rePanCap]

/-- Block totals: /total\s+amount\s+paid\s*[\/]?\s*credited\s*[:\-]?\s*([₹$]?\s*[\d,\.]+)/i -/
def reDedPaid : RE :=
  seqs [litS "total", sPlus, litS "amount", sPlus, litS "paid",
        sStar, opt (.ch '/'), sStar, litS "credited", sStar, opt colonDash, sStar, reTotCap]

/-- Sub-table header test /section/i. -/
def reTdsHdrSec : RE := litS "section"

/-- Sub-table header test /(transaction|date)/i. -/
def reTdsHdrTd : RE := .grp 1 (alts [litS "transaction", litS "date"])

/-- Tax row separator: /^[-=\s|]+$/ -/
def reTaxSep : RE :=
  seqs [.bos, plus1 (.cls false [.one '-', .one '=', .space, .one '|']), .eos]

/-- Tax row stop: /total|grand\s+total/i -/
def reTotalStop : RE :=
  alts [litS "total", seqs [litS "grand", sPlus, litS "total"]]

/-- Statutory section code: /\b(1\d{2}[A-Z]?)\b/ (no i flag) -/
def reSecCode : RE :=
  seqs [.wb, .grp 1 (seqs [.ch '1', dRep 2 2, opt (.cls false [.range 'A' 'Z'])]), .wb]

/-- Tax row date: /(\d{1,2}[\/\-\.]\d{1,2}[\/\-\.]\d{2,4})/g -/
def reTaxDate : RE := reHeurDate

/-- Tax row amount: /[₹$]?\s*[\d,]+\.\d{2}/g -/
def reTaxAmt : RE :=
  seqs [opt (.cls false [.one '₹', .one '$']), sStar,
        plus1 (.cls false [.digit, .one ',']), .ch '.', dRep 2 2]

/-- Status of booking: /\b(F|U|P|O)\b/ (no i flag) -/
def reStatus : RE :=
  seqs [.wb, .grp 1 (alts [.ch 'F', .ch 'U', .ch 'P', .ch 'O']), .wb]

/-- /remarks?\s*[:\-]?\s*([A-Za-z0-9\s\-\.]{3,50})/i -/
def reRemarks : RE :=
  seqs [litS "remark", opt (.ch 's'), sStar, opt colonDash, sStar,
        .grp 1 (.rep 3 (some 50)
          (.cls false [.range 'A' 'Z', .range 'a' 'z', .range '0' '9',
                       .space, .one '-', .one '.']))]

/-! ### Tax parsing functions -/

/-- extractStatusOfBooking: first standalone F/U/P/O letter, mapped through
the status table (the table covers every possible capture). -/
def extractStatusOfBooking (line : List Char) : Option String :=
  ((reFind false reStatus line).bind (fun m => capGet m 1)).map (fun c =>
    let s := String.mk c
    if s = "F" then "Final"
    else if s = "U" then "Unmatched"
    else if s = "P" then "Provisional"
    else if s = "O" then "Overbooked"
    else s)

/-- extractRemarks: labeled free-text remarks, trimmed. -/
def extractRemarks (line : List Char) : Option String :=
  ((reFind true reRemarks line).bind (fun m => capGet m 1)).map
    (fun c => String.mk (jsTrim c))

/-- The row scan of extractTDSTransactions: skip separators, stop at a
total line, skip section-less rows when a sub-table header was found, and
build the row record; a row is kept only when it has a section code or a
transaction date. -/
def scanTds (nd : String → Option String) (hasHeader : Bool) :
    List (List Char) → List TaxTxn
  | [] => []
  | line :: rest =>
    if reTest false reTaxSep line then scanTds nd hasHeader rest
    else if reTest true reTotalStop line then []
    else
      let sectionMatch := reFind false reSecCode line
      if sectionMatch.isNone && hasHeader then scanTds nd hasHeader rest
      else
        let dateMatches := reFindAll false reTaxDate line
        let amounts := (reFindAll false reTaxAmt line).map
          (fun m => normalizeAmount (String.mk m.mat))
        let txn : TaxTxn :=
          { sec := (sectionMatch.bind (fun m => capGet m 1)).map String.mk,
            transaction_date :=
              match dateMatches.get? 0 with
              | some m => nd (String.mk m.mat)
              | none => none,
            booking_date :=
              match dateMatches.get? 1 with
              | some m => nd (String.mk m.mat)
              | none => none,
            status_of_booking := extractStatusOfBooking line,
            remarks := extractRemarks line,
            amount_paid_credited := idxNull amounts 0,
            tax_deducted := idxNull amounts 1,
            tds_deposited := idxNull amounts 2 }
        if txn.sec.isSome || txn.transaction_date.isSome then txn :: scanTds nd hasHeader rest
        else scanTds nd hasHeader rest

/-- extractTDSTransactions: find the sub-table header (a line with a
section token and a transaction/date token); scan from after it, or from
the block start when absent. -/
def extractTDSTransactions (nd : String → Option String)
    (lines : List (List Char)) (blockText : List Char) : List TaxTxn :=
  match lines.findIdx? (fun l => reTest true reTdsHdrSec l && reTest true reTdsHdrTd l) with
  | some i => scanTds nd true (lines.drop (i + 1))
  | none => scanTds nd false lines

/-- Does a line start a deductor section? -/
def isDedStart (line : List Char) : Bool :=
  reTest true reDedStart1 line || reTest true reDedStart2 line || reTest true reDedStart3 line

/-- The block-splitting loop of splitByDeductors: a start line flushes the
current block and opens a new one; lines before the first start line are
dropped. -/
def splitDedAux : List (List Char) → List (List (List Char)) → List (List Char) →
    Bool → List (List (List Char))
  | [], blocks, cur, _ => blocks ++ (if cur.isEmpty then [] else [cur])
  | line :: rest, blocks, cur, inB =>
    if isDedStart line then
      splitDedAux rest (blocks ++ (if cur.isEmpty then [] else [cur])) [line] true
    else if inB then splitDedAux rest blocks (cur ++ [line]) true
    else splitDedAux rest blocks cur inB

/-- splitByDeductors: split at the section-start markers; when no marker is
found anywhere, the whole document is one block. -/
def splitByDeductors (lines : List (List Char)) : List (List (List Char)) :=
  let blocks := splitDedAux lines [] [] false
  if blocks.isEmpty then [lines] else blocks

/-- block.join('\n'). -/
def joinNL : List (List Char) → List Char
  | [] => []
  | [l] => l
  | l :: rest => l ++ '\n' :: joinNL rest

/-- parseDeductorBlock: labeled identity fields and totals over the block
text, plus the nested transaction rows (the source always returns the
record). -/
def parseDeductorBlock (nd : String → Option String) (lines : List (List Char))
    (blockText : List Char) : Deductor :=
  { name := (reFind true reDedName blockText).bind
      (fun m => (capGet m 1).map (fun c => String.mk (jsTrim c))),
    tan := (reFind true reDedTan blockText).bind
      (fun m => (capGet m 1).map (fun c => String.mk (toUpperL c))),
    pan := (reFind true reDedPan blockText).bind
      (fun m => (capGet m 1).map (fun c => String.mk (toUpperL c))),
    total_amount_paid_credited := ((reFind true reDedPaid blockText).bind
      (fun m => capGet m 1)).bind (fun c => normalizeAmount (String.mk c)),
    total_tax_deducted := ((reFind true reTaxDedTot blockText).bind
      (fun m => capGet m 1)).bind (fun c => normalizeAmount (String.mk c)),
    total_tds_deposited := ((reFind true reTdsDepTot blockText).bind
      (fun m => capGet m 1)).bind (fun c => normalizeAmount (String.mk c)),
    transactions := extractTDSTransactions nd lines blockText }

/-- extractDeductors: one Deductor per block (nothing is pushed onto the
internal warnings array).  The fullText parameter is received but, as in
the source, not used. -/
def extractDeductors (nd : String → Option String) (lines : List (List Char))
    (fullText : List Char) : List Deductor × List Warning :=
  ((splitByDeductors lines).map (fun b => parseDeductorBlock nd b (joinNL b)), [])

/-- extractTaxHeader: labeled first-match searches over the cleaned full
text; the lines parameter is received but, as in the source, not used. -/
def extractTaxHeader (text : List Char) (lines : List (List Char)) : TaxHeader :=
  { form_type := (reFind true reFormType text).map
      (fun m => String.mk (toUpperL (wsRunsToSpace m.mat))),
    assessment_year := (reFind true reAy text).bind
      (fun m => (capGet m 1).map (fun c => String.mk (c.filter (fun ch => !isSpaceC ch)))),
    taxpayer_name := (firstFind [reTaxName1, reTaxName2] text).bind
      (fun m => (capGet m 1).map (fun c => String.mk (jsTrim c))),
    pan := (reFind true rePanHdr text).bind
      (fun m => (capGet m 1).map (fun c => String.mk (toUpperL c))),
    taxpayer_address := none,
    total_amount_paid_credited := ((reFind true reHdrPaid text).bind
      (fun m => capGet m 1)).bind (fun c => normalizeAmount (String.mk c)),
    total_tax_deducted := ((reFind true reTaxDedTot text).bind
      (fun m => capGet m 1)).bind (fun c => normalizeAmount (String.mk c)),
    total_tds_deposited := ((reFind true reTdsDepTot text).bind
      (fun m => capGet m 1)).bind (fun c => normalizeAmount (String.mk c)) }

/-- The tax header as calcConfidence's field map, in declaration order. -/
def taxHeaderFields (h : TaxHeader) : List (String × Option FVal) :=
  [("form_type", h.form_type.map FVal.s),
   ("assessment_year", h.assessment_year.map FVal.s),
   ("taxpayer_name", h.taxpayer_name.map FVal.s),
   ("pan", h.pan.map FVal.s),
   ("taxpayer_address", h.taxpayer_address.map FVal.s),
   ("total_amount_paid_credited", h.total_amount_paid_credited.map FVal.n),
   ("total_tax_deducted", h.total_tax_deducted.map FVal.n),
   ("total_tds_deposited", h.total_tds_deposited.map FVal.n)]

/-! ## Extraction results and the processor core -/

/-- The data payload of an extraction: the bank and tax shapes carry a
header and their records; the unknown branch of the processor carries no
such keys at all, which noneOut represents. -/
inductive CoreOutput where
  | bank (header : BankHeader) (transactions : List BankTxn)
  | tax (header : TaxHeader) (deductors : List Deductor)
  | noneOut
deriving DecidableEq, Repr

/-- An extractor's return value: output payload, confidence, warnings. -/
structure Extraction where
  output : CoreOutput
  confidence : ℚ
  warnings : List Warning
deriving DecidableEq, Repr

/-- extractBankStatement: clean the text, split lines, extract header and
transactions, add NO_TRANSACTIONS when the table came out empty, and floor
the header-completeness confidence at 0.5 (records found) or 0.1 (none).
The pageTexts parameter is received but, as in the source, not used. -/
def extractBankStatement (nd : String → Option String) (pageTexts : List String)
    (fullText : String) : Extraction :=
  let text := cleanOCRList fullText.data
  let lines := getLinesL text
  let header := extractHeader nd text lines
  let tw := extractTransactions nd lines text
  let transactions := tw.1
  let warnings := tw.2 ++ (if transactions.length = 0 then [wNoTransactions] else [])
  let confidence := calcConfidence (bankHeaderFields header)
    ["account_number", "statement_period_from", "statement_period_to"]
  { output := CoreOutput.bank header transactions,
    confidence := max confidence (if transactions.length > 0 then (1 : ℚ) / 2 else (1 : ℚ) / 10),
    warnings := warnings }

/-- extractTaxStatement: clean the text, split lines, extract header and
deductor blocks, add NO_DEDUCTORS when no block was extracted, and floor
the confidence as the bank extractor does.  The pageTexts parameter is
received but, as in the source, not used. -/
def extractTaxStatement (nd : String → Option String) (pageTexts : List String)
    (fullText : String) : Extraction :=
  let text := cleanOCRList fullText.data
  let lines := getLinesL text
  let header := extractTaxHeader text lines
  let dw := extractDeductors nd lines text
  let deductors := dw.1
  let warnings := dw.2 ++ (if deductors.length = 0 then [wNoDeductors] else [])
  let confidence := calcConfidence (taxHeaderFields header)
    ["pan", "assessment_year", "taxpayer_name"]
  { output := CoreOutput.tax header deductors,
    confidence := max confidence (if deductors.length > 0 then (1 : ℚ) / 2 else (1 : ℚ) / 10),
    warnings := warnings }

/-- The assembled result the processor builds and validates (the constant
schema_version, the job identifiers and the page/scan metadata, which are
carried through unchanged from the job context, are outside this model). -/
structure FinalResult where
  document_type : String
  confidence : ℚ
  warnings : List Warning
  output : CoreOutput
deriving DecidableEq, Repr

/-- validateResult, modelled from the Ajv schemas of the schema validator:
on this statically-typed result every structural requirement of the three
schemas (required keys, nullable field typing, array shapes, the warning
item shape) holds by construction, so the checks that can fail are the
numeric range of confidence and the document-type enumeration; the
validator never blocks, it only reports errors. -/
def validateResult (result : FinalResult) (documentType : String) : Bool × List String :=
  let errs : List String :=
    (if 0 ≤ result.confidence then [] else ["/confidence must be >= 0"])
    ++ (if result.confidence ≤ 1 then [] else ["/confidence must be <= 1"])
    ++ (if result.document_type = "bank_statement" || result.document_type = "tax_statement"
           || result.document_type = "unknown" then []
        else ["/document_type must be equal to one of the allowed values"])
  (errs.isEmpty, errs)

/-- The pure tail of processJob (steps 4 to 7) on the text-layer path, over
an abstract date normalizer: classify, run the extractor selected by the
verdict (the unknown branch yields the fixed low-confidence placeholder
whose object spread contributes no payload keys), blend the confidences as
0.2 x classification + 0.8 x extraction rounded to two decimals, assemble
the result with the caller warnings before the extractor warnings, and
append a SCHEMA_VALIDATION warning per validator error.  I/O, persistence
and progress reporting are the excluded collaborators around this tail. -/
def processCoreWith (nd : String → Option String) (fullText filename : String) :
    FinalResult :=
  let verdict := classifyDocument fullText filename
  let baseWarnings := if verdict.documentType = "unknown" then [wUnknownDocType] else []
  let extraction :=
    if verdict.documentType = "bank_statement" then extractBankStatement nd [] fullText
    else if verdict.documentType = "tax_statement" then extractTaxStatement nd [] fullText
    else { output := CoreOutput.noneOut, confidence := (1 : ℚ) / 10, warnings := [] }
  let overallConfidence := jsRound2 (verdict.confidence * (1 / 5) + extraction.confidence * (4 / 5))
  let finalResult : FinalResult :=
    { document_type := verdict.documentType,
      confidence := overallConfidence,
      warnings := baseWarnings ++ extraction.warnings,
      output := extraction.output }
  let v := validateResult finalResult verdict.documentType
  if v.1 then finalResult
  else { finalResult with
         warnings := finalResult.warnings ++ v.2.map (fun e => ⟨"SCHEMA_VALIDATION", e⟩) }

/-- The processor core with the source's date normalizer. -/
def processCore (fullText filename : String) : FinalResult :=
  processCoreWith normalizeDate fullText filename

/-- The processor core with the clock reading behind normalizeDate made
explicit. -/
def processCoreAt (now : Nat) (fullText filename : String) : FinalResult :=
  processCoreWith (normalizeDateAt now) fullText filename

/-! ## Specification-side definitions

claimedScore renders the specification's description of the classifier
score (sum over patterns of min(occurrence count, 2) x weight), to be
compared with the source's scoreText. -/

/-- The score the specification describes: for each keyword, the number of
occurrences of the pattern in the text, capped at 2, times the weight. -/
def claimedScore (text : List Char) (keywords : List KW) : Nat :=
  keywords.foldl (fun score kw => score + min (countOccurrences true kw.re text) 2 * kw.weight) 0

/-- Are all letter-before-digit OCR artifacts absent (no lowercase l or
uppercase O before a digit, no word-initial uppercase I before a digit)?
The three substitution passes are exactly the identity on such texts. -/
def ocrStable (l : List Char) : Bool :=
  !hasTrig trigL none l && !hasTrig trigO none l && !hasTrig trigI none l

/-- The pipe-character mask. -/
def isPipeC (c : Char) : Bool := c = '|'

/-- No two adjacent characters of the list both satisfy g. -/
def noAdjP (g : Char → Bool) : List Char → Bool
  | [] => true
  | [_] => true
  | a :: b :: r => !(g a && g b) && noAdjP g (b :: r)

/-- The specification's ISO YYYY-MM-DD shape: four digits, a dash, two
digits, a dash, two digits. -/
def isIsoShape (s : String) : Bool :=
  match s.data with
  | [y1, y2, y3, y4, s1, m1, m2, s2, d1, d2] =>
    isDigitC y1 && isDigitC y2 && isDigitC y3 && isDigitC y4 &&
    s1 == '-' && isDigitC m1 && isDigitC m2 && s2 == '-' &&
    isDigitC d1 && isDigitC d2
  | _ => false

/-! ## Proof-friendly Boolean comparators

Structure equality on ℚ through the derived decidable equality normalises
numeral proofs unarily; these field-wise Boolean comparators keep every
numeric comparison on the fast integer path, and their soundness lemmas
lift a computed true to a propositional equality. -/

/-- Boolean equality of rationals by numerator and denominator. -/
def qBeq (a b : ℚ) : Bool := a.num == b.num && a.den == b.den

/-- Boolean equality of optional rationals. -/
def oqBeq : Option ℚ → Option ℚ → Bool
  | none, none => true
  | some a, some b => qBeq a b
  | _, _ => false

/-- Boolean equality of lists under a component comparator. -/
def lBeq (f : α → α → Bool) : List α → List α → Bool
  | [], [] => true
  | a :: as, b :: bs => f a b && lBeq f as bs
  | _, _ => false

/-- Field-wise Boolean equality of bank transactions. -/
def bankTxnBeq (a b : BankTxn) : Bool :=
  decide (a.date = b.date) && decide (a.description = b.description) &&
  oqBeq a.debit b.debit && oqBeq a.credit b.credit && oqBeq a.balance b.balance &&
  decide (a.reference = b.reference) && decide (a.rawLine = b.rawLine)

/-- Boolean equality of optional bank transactions. -/
def obtBeq : Option BankTxn → Option BankTxn → Bool
  | none, none => true
  | some a, some b => bankTxnBeq a b
  | _, _ => false

/-- Field-wise Boolean equality of TDS transactions. -/
def taxTxnBeq (a b : TaxTxn) : Bool :=
  decide (a.sec = b.sec) && decide (a.transaction_date = b.transaction_date) &&
  decide (a.booking_date = b.booking_date) && decide (a.status_of_booking = b.status_of_booking) &&
  decide (a.remarks = b.remarks) && oqBeq a.amount_paid_credited b.amount_paid_credited &&
  oqBeq a.tax_deducted b.tax_deducted && oqBeq a.tds_deposited b.tds_deposited

/-- Field-wise Boolean equality of deductors. -/
def deductorBeq (a b : Deductor) : Bool :=
  decide (a.name = b.name) && decide (a.tan = b.tan) && decide (a.pan = b.pan) &&
  oqBeq a.total_amount_paid_credited b.total_amount_paid_credited &&
  oqBeq a.total_tax_deducted b.total_tax_deducted &&
  oqBeq a.total_tds_deposited b.total_tds_deposited &&
  lBeq taxTxnBeq a.transactions b.transactions

/-! # Theorems

First the soundness lemmas of the Boolean comparators, then the claim
theorems. -/

theorem qBeq_sound {a b : ℚ} (h : qBeq a b = true) : a = b := by
  simp only [qBeq, Bool.and_eq_true, beq_iff_eq] at h
  exact Rat.ext h.1 h.2

theorem oqBeq_sound : ∀ {a b : Option ℚ}, oqBeq a b = true → a = b
  | none, none, _ => rfl
  | some _, some _, h => congrArg some (qBeq_sound h)

theorem lBeq_sound {f : α → α → Bool} (hf : ∀ x y, f x y = true → x = y) :
    ∀ {xs ys : List α}, lBeq f xs ys = true → xs = ys
  | [], [], _ => rfl
  | x :: xs, y :: ys, h => by
    simp only [lBeq, Bool.and_eq_true] at h
    rw [hf x y h.1, lBeq_sound hf h.2]

theorem bankTxnBeq_sound {a b : BankTxn} (h : bankTxnBeq a b = true) : a = b := by
  cases a
  cases b
  simp only [bankTxnBeq, Bool.and_eq_true, decide_eq_true_eq] at h
  obtain ⟨⟨⟨⟨⟨⟨h1, h2⟩, h3⟩, h4⟩, h5⟩, h6⟩, h7⟩ := h
  simp only [BankTxn.mk.injEq]
  exact ⟨h1, h2, oqBeq_sound h3, oqBeq_sound h4, oqBeq_sound h5, h6, h7⟩

theorem obtBeq_sound : ∀ {a b : Option BankTxn}, obtBeq a b = true → a = b
  | none, none, _ => rfl
  | some _, some _, h => congrArg some (bankTxnBeq_sound h)

theorem taxTxnBeq_sound {a b : TaxTxn} (h : taxTxnBeq a b = true) : a = b := by
  cases a
  cases b
  simp only [taxTxnBeq, Bool.and_eq_true, decide_eq_true_eq] at h
  obtain ⟨⟨⟨⟨⟨⟨⟨h1, h2⟩, h3⟩, h4⟩, h5⟩, h6⟩, h7⟩, h8⟩ := h
  simp only [TaxTxn.mk.injEq]
  exact ⟨h1, h2, h3, h4, h5, oqBeq_sound h6, oqBeq_sound h7, oqBeq_sound h8⟩

theorem deductorBeq_sound {a b : Deductor} (h : deductorBeq a b = true) : a = b := by
  cases a
  cases b
  simp only [deductorBeq, Bool.and_eq_true, decide_eq_true_eq] at h
  obtain ⟨⟨⟨⟨⟨⟨h1, h2⟩, h3⟩, h4⟩, h5⟩, h6⟩, h7⟩ := h
  simp only [Deductor.mk.injEq]
  exact ⟨h1, h2, h3, oqBeq_sound h4, oqBeq_sound h5, oqBeq_sound h6,
         lBeq_sound (fun _ _ => taxTxnBeq_sound) h7⟩

/-- C1: the specification says each keyword pattern contributes
min(occurrences, 2) x weight to its ruleset's score, but scoreText feeds
Math.min the length of a NON-GLOBAL match array, which is 1 plus the
pattern's capture-group count when the pattern occurs at all and never
counts multiplicity.  On "debit debit debit" the only matching bank
pattern is the group-free /debit/i with weight 3, occurring three times:
the specification's score is min(3,2)x3 = 6, the code computes
min(1,2)x3 = 3.  On "account number" the only matching bank pattern is
/account\s+(number|no\.?|#)/i with weight 4 and one capture group,
occurring once: the specification's score is min(1,2)x4 = 4, the code
computes min(2,2)x4 = 8. -/
theorem scoreText_counts_match_array_not_occurrences :
    claimedScore "debit debit debit".data BANK_KEYWORDS = 6 ∧
    scoreText "debit debit debit".data BANK_KEYWORDS = 3 ∧
    claimedScore "account number".data BANK_KEYWORDS = 4 ∧
    scoreText "account number".data BANK_KEYWORDS = 8 :=
  of_decide_eq_true (by with_unfolding_all rfl)

/-- C2 (counterexample): cleanOCRArtifacts is not idempotent.  On "lO5"
the first pass rewrites O-before-digit to "l05", uncovering an
l-before-digit artifact the earlier l-rule already passed over, so a
second pass rewrites further to "105". -/
theorem cleanOCRArtifacts_not_idempotent :
    cleanOCRArtifacts (cleanOCRArtifacts "lO5") ≠ cleanOCRArtifacts "lO5" :=
  of_decide_eq_true (by with_unfolding_all rfl)

/-- C4 (counterexample): on empty input text (and a neutral filename) the
assembled result is classified unknown, but its warnings are exactly the
UNKNOWN_DOCUMENT_TYPE caller warning: no NO_TRANSACTIONS- or
NO_DEDUCTORS-class warning is present, because the unknown branch runs
neither extractor. -/
theorem processCore_empty_lacks_records_warnings :
    (processCore "" "").document_type = "unknown" ∧
    ∀ w ∈ (processCore "" "").warnings, w.code ≠ "NO_TRANSACTIONS" ∧ w.code ≠ "NO_DEDUCTORS" :=
  of_decide_eq_true (by with_unfolding_all rfl)

/-- C4 (amended): empty input text with an empty filename yields an
unknown verdict, overall confidence 0.08 (which is at most 0.1), a result
object carrying no header and no records keys at all (the unknown
branch's placeholder spreads no payload), and exactly the
UNKNOWN_DOCUMENT_TYPE warning; the schema validation passes, and no
NO_TRANSACTIONS or NO_DEDUCTORS warning is emitted since no extractor
runs. -/
theorem processCore_empty_result :
    (processCore "" "").document_type = "unknown" ∧
    (processCore "" "").confidence = 2 / 25 ∧
    (processCore "" "").confidence ≤ 1 / 10 ∧
    (processCore "" "").warnings = [wUnknownDocType] ∧
    (processCore "" "").output = CoreOutput.noneOut :=
  of_decide_eq_true (by with_unfolding_all rfl)

/-- C7: on a bank text whose first line is a detectable table header and
whose second line is the row "01/01/2024 SALARY CREDIT 55000.00 80430.50",
extraction produces exactly that one transaction: date 2024-01-01,
description "SALARY CREDIT", and — two amounts with a credit-indicating
keyword on the line — credit 55000.00, balance 80430.50, debit null. -/
theorem bank_extraction_example_row :
    (extractTransactions normalizeDate
        (getLinesL (cleanOCRList
          "Date Description Debit Credit\n01/01/2024 SALARY CREDIT 55000.00 80430.50".data))
        (cleanOCRList
          "Date Description Debit Credit\n01/01/2024 SALARY CREDIT 55000.00 80430.50".data)).1 =
      [{ date := some "2024-01-01", description := some "SALARY CREDIT", debit := none,
         credit := some 55000, balance := some ((160861 : ℚ) / 2), reference := none,
         rawLine := some "01/01/2024 SALARY CREDIT 55000.00 80430.50" }] ∧
    (extractTransactions normalizeDate
        (getLinesL (cleanOCRList
          "Date Description Debit Credit\n01/01/2024 SALARY CREDIT 55000.00 80430.50".data))
        (cleanOCRList
          "Date Description Debit Credit\n01/01/2024 SALARY CREDIT 55000.00 80430.50".data)).2 = [] :=
  ⟨lBeq_sound (fun _ _ => bankTxnBeq_sound) (of_decide_eq_true (by with_unfolding_all rfl)),
   of_decide_eq_true (by with_unfolding_all rfl)⟩

/-- C8: on the tax block "Name of Deductor: XYZ Pvt Ltd" / "TAN:
MUMX12345A" / "192 30/04/2024 F 5500.00", extraction yields exactly one
deductor with tan MUMX12345A and exactly one transaction with section
192, transaction date 2024-04-30 and status of booking Final. -/
theorem tax_extraction_example_block :
    (extractDeductors normalizeDate
        (getLinesL (cleanOCRList
          "Name of Deductor: XYZ Pvt Ltd\nTAN: MUMX12345A\n192 30/04/2024 F 5500.00".data))
        (cleanOCRList
          "Name of Deductor: XYZ Pvt Ltd\nTAN: MUMX12345A\n192 30/04/2024 F 5500.00".data)).1 =
      [{ name := some "XYZ Pvt Ltd", tan := some "MUMX12345A", pan := none,
         total_amount_paid_credited := none, total_tax_deducted := none,
         total_tds_deposited := none,
         transactions := [{ sec := some "192", transaction_date := some "2024-04-30",
                            booking_date := none, status_of_booking := some "Final",
                            remarks := none, amount_paid_credited := some 5500,
                            tax_deducted := none, tds_deposited := none }] }] ∧
    (extractDeductors normalizeDate
        (getLinesL (cleanOCRList
          "Name of Deductor: XYZ Pvt Ltd\nTAN: MUMX12345A\n192 30/04/2024 F 5500.00".data))
        (cleanOCRList
          "Name of Deductor: XYZ Pvt Ltd\nTAN: MUMX12345A\n192 30/04/2024 F 5500.00".data)).2 = [] :=
  ⟨lBeq_sound (fun _ _ => deductorBeq_sound) (of_decide_eq_true (by with_unfolding_all rfl)),
   of_decide_eq_true (by with_unfolding_all rfl)⟩

/-- C10: a monetary token parsing to 0 is recorded as null rather than 0:
in the three-or-more-amounts branch of header-mode row parsing all of
debit, credit and balance pass through the falsy-zero JS or-null, and in
heuristic mode all three amount fields do; the token "0.00" itself
normalises to the value 0, so a zero amount is indistinguishable from an
absent one in the output record. -/
theorem zero_amount_tokens_recorded_as_null :
    parseTransactionRow normalizeDate "02/01/2024 FEE 0.00 0.00 0.00".data
        ⟨none, none, none, none, none, none⟩ 1 =
      some { date := some "2024-01-02", description := some "FEE", debit := none,
             credit := none, balance := none, reference := none,
             rawLine := some "02/01/2024 FEE 0.00 0.00 0.00" } ∧
    parseHeurLine normalizeDate "03/01/2024 X 0.00 0.00 0.00".data =
      some { date := some "2024-01-03", description := some "X", debit := none,
             credit := none, balance := none, reference := none, rawLine := none } ∧
    normalizeAmount "0.00" = some 0 :=
  ⟨obtBeq_sound (of_decide_eq_true (by with_unfolding_all rfl)),
   obtBeq_sound (of_decide_eq_true (by with_unfolding_all rfl)),
   of_decide_eq_true (by with_unfolding_all rfl)⟩

/-! ### Run-collapse invariants for the OCR-cleanup idempotence analysis -/

theorem noAdjP_tail {g : Char → Bool} {c : Char} {r : List Char}
    (h : noAdjP g (c :: r) = true) : noAdjP g r = true := by
  cases r with
  | nil => rfl
  | cons b r2 =>
    simp only [noAdjP, Bool.and_eq_true] at h
    exact h.2

theorem noAdjP_cons {g : Char → Bool} {c : Char} {r : List Char}
    (hpair : ∀ y, r.head? = some y → (g c && g y) = false)
    (h : noAdjP g r = true) : noAdjP g (c :: r) = true := by
  cases r with
  | nil => rfl
  | cons b r2 =>
    simp only [noAdjP, Bool.and_eq_true, Bool.not_eq_true']
    exact ⟨hpair b rfl, h⟩

/-- A contextual character map whose rule preserves a character mask g
preserves g-adjacency-freedom. -/
theorem mapCtx_noAdjP {g : Char → Bool} {f : Option Char → Char → Option Char → Char}
    (hf : ∀ p c n, g (f p c n) = g c) :
    ∀ (prev : Option Char) (l : List Char),
      noAdjP g l = true → noAdjP g (mapCtx f prev l) = true
  | _, [], _ => rfl
  | _, [_], _ => rfl
  | prev, a :: b :: r, h => by
    simp only [noAdjP, Bool.and_eq_true, Bool.not_eq_true'] at h
    have ih := mapCtx_noAdjP hf (some a) (b :: r) h.2
    show noAdjP g (f prev a (some b) :: mapCtx f (some a) (b :: r)) = true
    apply noAdjP_cons ?_ ih
    intro y hy
    have hy2 : y = f (some a) b r.head? := by
      simp only [mapCtx, List.head?_cons, Option.some.injEq] at hy
      exact hy.symm
    rw [hy2, hf, hf]
    exact h.1

/-- A contextual substitution whose trigger fires nowhere is the
identity. -/
theorem mapCtx_substIf_id {t : Option Char → Char → Option Char → Bool} {r : Char} :
    ∀ (prev : Option Char) (l : List Char), hasTrig t prev l = false →
      mapCtx (substIf t r) prev l = l
  | _, [], _ => rfl
  | prev, c :: rest, h => by
    simp only [hasTrig, Bool.or_eq_false_iff] at h
    show substIf t r prev c rest.head? :: mapCtx (substIf t r) (some c) rest = c :: rest
    rw [mapCtx_substIf_id (some c) rest h.2]
    unfold substIf
    rw [h.1]
    simp

/-- A contextual substitution whose trigger implies the mask is unchanged
by the replacement preserves the mask pointwise. -/
theorem substIf_mask {g : Char → Bool} {t : Option Char → Char → Option Char → Bool}
    {r : Char} (hgr : ∀ p c n, t p c n = true → g r = g c) :
    ∀ p c n, g (substIf t r p c n) = g c := by
  intro p c n
  unfold substIf
  by_cases h : t p c n = true
  · rw [if_pos h]
    exact hgr p c n h
  · rw [if_neg h]

theorem trigL_char {p : Option Char} {c : Char} {n : Option Char}
    (h : trigL p c n = true) : c = 'l' := by
  simp only [trigL, Bool.and_eq_true, decide_eq_true_eq] at h
  exact h.1

theorem trigO_char {p : Option Char} {c : Char} {n : Option Char}
    (h : trigO p c n = true) : c = 'O' := by
  simp only [trigO, Bool.and_eq_true, decide_eq_true_eq] at h
  exact h.1

theorem trigI_char {p : Option Char} {c : Char} {n : Option Char}
    (h : trigI p c n = true) : c = 'I' := by
  simp only [trigI, Bool.and_eq_true, decide_eq_true_eq] at h
  exact h.1.1

/-- The pipe-collapse pass leaves no two adjacent pipes, and its output
starts with a pipe only when the input does at a run boundary. -/
theorem pipes_invariant : ∀ (prev : Option Char) (l : List Char),
    noAdjP isPipeC (filtCtx pipeRule prev l) = true ∧
    ((filtCtx pipeRule prev l).head? = some '|' → prev ≠ some '|' ∧ l.head? = some '|')
  | _, [] => ⟨rfl, fun h => nomatch h⟩
  | prev, c :: r => by
    have ih := pipes_invariant (some c) r
    by_cases hc : c = '|'
    · subst hc
      by_cases hp : prev = some '|'
      · have e : filtCtx pipeRule prev ('|' :: r) = filtCtx pipeRule (some '|') r := by
          simp [filtCtx, pipeRule, hp]
        rw [e]
        refine ⟨ih.1, fun hh => absurd rfl (ih.2 hh).1⟩
      · by_cases hn : r.head? = some '|'
        · have e : filtCtx pipeRule prev ('|' :: r) = ' ' :: filtCtx pipeRule (some '|') r := by
            simp [filtCtx, pipeRule, hp, hn]
          rw [e]
          constructor
          · apply noAdjP_cons ?_ ih.1
            intro y _
            simp [isPipeC]
          · intro hh
            simp at hh
        · have e : filtCtx pipeRule prev ('|' :: r) = '|' :: filtCtx pipeRule (some '|') r := by
            simp [filtCtx, pipeRule, hp, hn]
          rw [e]
          constructor
          · apply noAdjP_cons ?_ ih.1
            intro y hy
            by_cases hy2 : y = '|'
            · subst hy2
              exact absurd rfl (ih.2 hy).1
            · simp [isPipeC, hy2]
          · exact fun _ => ⟨hp, rfl⟩
    · have e : filtCtx pipeRule prev (c :: r) = c :: filtCtx pipeRule (some c) r := by
        simp [filtCtx, pipeRule, hc]
      rw [e]
      constructor
      · apply noAdjP_cons ?_ ih.1
        intro y _
        simp [isPipeC, hc]
      · intro hh
        simp only [List.head?_cons, Option.some.injEq] at hh
        exact absurd hh hc

/-- The pipe-collapse pass is the identity on pipe-adjacency-free input
whose head does not continue a pipe run. -/
theorem pipes_id : ∀ (prev : Option Char) (l : List Char),
    noAdjP isPipeC l = true → (prev = some '|' → l.head? ≠ some '|') →
    filtCtx pipeRule prev l = l
  | _, [], _, _ => rfl
  | prev, c :: r, h, hp => by
    by_cases hc : c = '|'
    · subst hc
      have hprev : prev ≠ some '|' := fun he => (hp he) rfl
      have hn : r.head? ≠ some '|' := by
        cases r with
        | nil => simp
        | cons b r2 =>
          simp only [noAdjP, Bool.and_eq_true, Bool.not_eq_true', Bool.and_eq_false_iff,
            isPipeC] at h
          rcases h.1 with hb | hb
          · simp at hb
          · simp only [List.head?_cons, ne_eq, Option.some.injEq]
            intro he
            rw [he] at hb
            simp at hb
      have e : filtCtx pipeRule prev ('|' :: r) = '|' :: filtCtx pipeRule (some '|') r := by
        simp [filtCtx, pipeRule, hprev, hn]
      rw [e, pipes_id (some '|') r (noAdjP_tail h) (fun _ => hn)]
    · have e : filtCtx pipeRule prev (c :: r) = c :: filtCtx pipeRule (some c) r := by
        simp [filtCtx, pipeRule, hc]
      rw [e, pipes_id (some c) r (noAdjP_tail h)
        (fun he => absurd (Option.some.inj he) hc)]

/-- The whitespace-collapse pass leaves no two adjacent whitespace
characters, and after a whitespace character its output never starts with
whitespace. -/
theorem ws_invariant : ∀ (prev : Option Char) (l : List Char),
    noAdjP isSpaceC (filtCtx wsRule prev l) = true ∧
    (spaceOpt prev = true →
      ∀ y, (filtCtx wsRule prev l).head? = some y → isSpaceC y = false)
  | _, [] => ⟨rfl, fun _ y h => nomatch h⟩
  | prev, c :: r => by
    have ih := ws_invariant (some c) r
    by_cases hc : isSpaceC c = true
    · by_cases hp : spaceOpt prev = true
      · have e : filtCtx wsRule prev (c :: r) = filtCtx wsRule (some c) r := by
          simp [filtCtx, wsRule, hc, hp]
        rw [e]
        refine ⟨ih.1, fun _ y hy => ih.2 (by simp [spaceOpt, hc]) y hy⟩
      · have hpair : ∀ y, (filtCtx wsRule (some c) r).head? = some y →
            ∀ o, isSpaceC o = true → (isSpaceC o && isSpaceC y) = false := by
          intro y hy o _
          rw [ih.2 (by simp [spaceOpt, hc]) y hy]
          simp
        by_cases hn : spaceOpt r.head? = true
        · have e : filtCtx wsRule prev (c :: r) = ' ' :: filtCtx wsRule (some c) r := by
            simp [filtCtx, wsRule, hc, hp, hn]
          rw [e]
          constructor
          · exact noAdjP_cons (fun y hy => hpair y hy ' ' (by decide)) ih.1
          · intro hsp
            exact absurd hsp hp
        · have e : filtCtx wsRule prev (c :: r) = c :: filtCtx wsRule (some c) r := by
            simp [filtCtx, wsRule, hc, hp, hn]
          rw [e]
          constructor
          · exact noAdjP_cons (fun y hy => hpair y hy c hc) ih.1
          · intro hsp
            exact absurd hsp hp
    · have e : filtCtx wsRule prev (c :: r) = c :: filtCtx wsRule (some c) r := by
        simp [filtCtx, wsRule, hc]
      rw [e]
      constructor
      · apply noAdjP_cons ?_ ih.1
        intro y _
        simp only [Bool.and_eq_false_iff]
        exact Or.inl (by simpa using hc)
      · intro _ y hy
        simp only [List.head?_cons, Option.some.injEq] at hy
        subst hy
        simpa using hc

/-- The whitespace-collapse pass is the identity on
whitespace-adjacency-free input whose head does not continue a whitespace
run. -/
theorem ws_id : ∀ (prev : Option Char) (l : List Char),
    noAdjP isSpaceC l = true →
    (spaceOpt prev = true → ∀ y, l.head? = some y → isSpaceC y = false) →
    filtCtx wsRule prev l = l
  | _, [], _, _ => rfl
  | prev, c :: r, h, hp => by
    by_cases hc : isSpaceC c = true
    · have hprev : spaceOpt prev = false := by
        by_cases hq : spaceOpt prev = true
        · exact absurd hc (by simpa using hp hq c rfl)
        · simpa using hq
      have hn : spaceOpt r.head? = false := by
        cases r with
        | nil => rfl
        | cons b r2 =>
          simp only [noAdjP, Bool.and_eq_true, Bool.not_eq_true', Bool.and_eq_false_iff] at h
          rcases h.1 with hb | hb
          · rw [hc] at hb
            simp at hb
          · simpa [spaceOpt] using hb
      have e : filtCtx wsRule prev (c :: r) = c :: filtCtx wsRule (some c) r := by
        simp [filtCtx, wsRule, hc, hprev, hn]
      rw [e, ws_id (some c) r (noAdjP_tail h) ?_]
      intro _ y hy
      cases r with
      | nil => nomatch hy
      | cons b r2 =>
        simp only [List.head?_cons, Option.some.injEq] at hy
        rw [← hy]
        simpa [spaceOpt] using hn
    · have e : filtCtx wsRule prev (c :: r) = c :: filtCtx wsRule (some c) r := by
        simp [filtCtx, wsRule, hc]
      rw [e, ws_id (some c) r (noAdjP_tail h) ?_]
      intro hsp
      rw [show spaceOpt (some c) = isSpaceC c from rfl] at hsp
      exact absurd hsp hc

/-- The whitespace-collapse pass preserves pipe-adjacency-freedom, and
after a non-whitespace character its output starts with a pipe only when
the input does. -/
theorem ws_pipe_invariant : ∀ (prev : Option Char) (l : List Char),
    (noAdjP isPipeC l = true → noAdjP isPipeC (filtCtx wsRule prev l) = true) ∧
    (spaceOpt prev = false →
      (filtCtx wsRule prev l).head? = some '|' → l.head? = some '|')
  | _, [] => ⟨fun _ => rfl, fun _ h => nomatch h⟩
  | prev, c :: r => by
    have ih := ws_pipe_invariant (some c) r
    by_cases hc : isSpaceC c = true
    · have hcp : isPipeC c = false := by
        by_cases hx : c = '|'
        · subst hx
          exact absurd hc (by decide)
        · simp [isPipeC, hx]
      by_cases hp : spaceOpt prev = true
      · have e : filtCtx wsRule prev (c :: r) = filtCtx wsRule (some c) r := by
          simp [filtCtx, wsRule, hc, hp]
        rw [e]
        refine ⟨fun h => ih.1 (noAdjP_tail h), fun hsp _ => absurd hp (by simp [hsp])⟩
      · have key : ∀ o, isSpaceC o = true →
            (noAdjP isPipeC (c :: r) = true →
              noAdjP isPipeC (o :: filtCtx wsRule (some c) r) = true) := by
          intro o ho h
          apply noAdjP_cons ?_ (ih.1 (noAdjP_tail h))
          intro y _
          simp only [Bool.and_eq_false_iff]
          left
          by_cases hx : o = '|'
          · subst hx
            exact absurd ho (by decide)
          · simp [isPipeC, hx]
        by_cases hn : spaceOpt r.head? = true
        · have e : filtCtx wsRule prev (c :: r) = ' ' :: filtCtx wsRule (some c) r := by
            simp [filtCtx, wsRule, hc, hp, hn]
          rw [e]
          refine ⟨key ' ' (by decide), fun _ hh => ?_⟩
          simp only [List.head?_cons, Option.some.injEq] at hh
          exact absurd hh (by decide)
        · have e : filtCtx wsRule prev (c :: r) = c :: filtCtx wsRule (some c) r := by
            simp [filtCtx, wsRule, hc, hp, hn]
          rw [e]
          refine ⟨key c hc, fun _ hh => ?_⟩
          simp only [List.head?_cons, Option.some.injEq] at hh
          subst hh
          exact absurd hc (by decide)
    · have e : filtCtx wsRule prev (c :: r) = c :: filtCtx wsRule (some c) r := by
        simp [filtCtx, wsRule, hc]
      rw [e]
      constructor
      · intro h
        apply noAdjP_cons ?_ (ih.1 (noAdjP_tail h))
        intro y hy
        by_cases hcy : isPipeC c = true
        · have hc' : c = '|' := by simpa [isPipeC] using hcy
          subst hc'
          have hr : r.head? = some '|' → False := by
            intro hrh
            cases r with
            | nil => nomatch hrh
            | cons b r2 =>
              simp only [List.head?_cons, Option.some.injEq] at hrh
              subst hrh
              simp [noAdjP, isPipeC] at h
          by_cases hy2 : y = '|'
          · subst hy2
            exact absurd (ih.2 (by simpa [spaceOpt] using hc) hy) hr
          · simp [isPipeC, hy2]
        · simp only [Bool.and_eq_false_iff]
          exact Or.inl (by simpa using hcy)
      · intro _ hh
        simpa using hh

/-- The cleaned text has no adjacent pipes, no adjacent whitespace, and —
when its letter-before-digit artifacts are exhausted — every pass of a
second cleanup application is the identity. -/
theorem cleanOCRList_stable_idem (l : List Char)
    (h : ocrStable (cleanOCRList l) = true) :
    cleanOCRList (cleanOCRList l) = cleanOCRList l := by
  have htrig : (hasTrig trigL none (cleanOCRList l) = false ∧
      hasTrig trigO none (cleanOCRList l) = false) ∧
      hasTrig trigI none (cleanOCRList l) = false := by
    simpa [ocrStable, Bool.and_eq_true, Bool.not_eq_true'] using h
  have hP0 : noAdjP isPipeC (collapsePipes l) = true := (pipes_invariant none l).1
  have hP1 : noAdjP isPipeC (fixL (collapsePipes l)) = true :=
    mapCtx_noAdjP (substIf_mask (fun p c n hh => by rw [trigL_char hh]; decide)) none _ hP0
  have hP2 : noAdjP isPipeC (fixO (fixL (collapsePipes l))) = true :=
    mapCtx_noAdjP (substIf_mask (fun p c n hh => by rw [trigO_char hh]; decide)) none _ hP1
  have hP3 : noAdjP isPipeC (fixI (fixO (fixL (collapsePipes l)))) = true :=
    mapCtx_noAdjP (substIf_mask (fun p c n hh => by rw [trigI_char hh]; decide)) none _ hP2
  have hPs : noAdjP isPipeC (cleanOCRList l) = true :=
    (ws_pipe_invariant none (fixI (fixO (fixL (collapsePipes l))))).1 hP3
  have hWs : noAdjP isSpaceC (cleanOCRList l) = true :=
    (ws_invariant none (fixI (fixO (fixL (collapsePipes l))))).1
  have e1 : collapsePipes (cleanOCRList l) = cleanOCRList l :=
    pipes_id none _ hPs (fun he => nomatch he)
  have e2 : fixL (cleanOCRList l) = cleanOCRList l :=
    mapCtx_substIf_id none _ htrig.1.1
  have e3 : fixO (cleanOCRList l) = cleanOCRList l :=
    mapCtx_substIf_id none _ htrig.1.2
  have e4 : fixI (cleanOCRList l) = cleanOCRList l :=
    mapCtx_substIf_id none _ htrig.2
  have e5 : collapseWS (cleanOCRList l) = cleanOCRList l :=
    ws_id none _ hWs (fun hsp => absurd hsp (by decide))
  show collapseWS (fixI (fixO (fixL (collapsePipes (cleanOCRList l))))) = cleanOCRList l
  rw [e1, e2, e3, e4, e5]

/-- C2 (amended): the OCR cleanup is not idempotent in general — a letter
substitution can uncover a letter-before-digit artifact an earlier pass
already scanned past (see the counterexample "lO5") — but whenever the
first pass's output contains no remaining artifact (no lowercase l or
uppercase O before a digit and no word-initial uppercase I before a
digit), a second application of cleanOCRArtifacts changes nothing, and
consequently neither does re-running the pipeline's cleanup on such
normalized text. -/
theorem cleanOCRArtifacts_idempotent_when_stable (t : String)
    (h : ocrStable (cleanOCRList t.data) = true) :
    cleanOCRArtifacts (cleanOCRArtifacts t) = cleanOCRArtifacts t :=
  congrArg String.mk (cleanOCRList_stable_idem t.data h)

theorem cleanOCRArtifacts_idempotent_witness :
    ocrStable (cleanOCRList "Tota1  va1ue: 1|23".data) = true ∧
    cleanOCRArtifacts (cleanOCRArtifacts "Tota1  va1ue: 1|23") =
      cleanOCRArtifacts "Tota1  va1ue: 1|23" :=
  ⟨of_decide_eq_true (by with_unfolding_all rfl),
   cleanOCRArtifacts_idempotent_when_stable "Tota1  va1ue: 1|23"
     (of_decide_eq_true (by with_unfolding_all rfl))⟩

theorem normalizeDateAt_drops_clock (now : Nat) (raw : String) :
    normalizeDateAt now raw = normalizeDate raw := rfl

/-- C3: the core is deterministic.  Its only environment reading is the
clock behind normalizeDate (the date-fns reference date, which contributes
only the time of day that the output date format discards), so the
normalizer and the whole processor core are independent of the clock:
runs at different times on identical text and filename give identical
verdicts, headers, records, confidences and warnings. -/
theorem core_output_independent_of_clock (now now2 : Nat)
    (fullText filename raw : String) :
    normalizeDateAt now raw = normalizeDateAt now2 raw ∧
    processCoreAt now fullText filename = processCoreAt now2 fullText filename := by
  constructor
  · rw [normalizeDateAt_drops_clock, normalizeDateAt_drops_clock]
  · show processCoreWith (normalizeDateAt now) fullText filename =
      processCoreWith (normalizeDateAt now2) fullText filename
    rw [funext (normalizeDateAt_drops_clock now), funext (normalizeDateAt_drops_clock now2)]

/-- C9 (counterexample): in heuristic mode the amount fields are not the
positional token values: on the single line "01/01/2024 PAYMENT 0.00" no
header pattern matches, the line's one monetary token parses to the value
0, yet the extracted transaction's debit is null, not 0 — the JS or-null
assignment nullifies falsy zero values. -/
theorem heuristic_zero_first_token_not_debit :
    findHeaderIdx ["01/01/2024 PAYMENT 0.00".data] = none ∧
    (extractTransactions normalizeDate ["01/01/2024 PAYMENT 0.00".data] []).1 =
      [{ date := some "2024-01-01", description := some "PAYMENT", debit := none,
         credit := none, balance := none, reference := none, rawLine := none }] ∧
    (reFindAll false reHeurAmt "01/01/2024 PAYMENT 0.00".data).map
      (fun m => normalizeAmount (String.mk m.mat)) = [some 0] :=
  ⟨of_decide_eq_true (by with_unfolding_all rfl),
   lBeq_sound (fun _ _ => bankTxnBeq_sound) (of_decide_eq_true (by with_unfolding_all rfl)),
   of_decide_eq_true (by with_unfolding_all rfl)⟩

/-! ### Date-normalizer lemmas -/

/-- digitChar always renders a decimal digit character. -/
theorem isDigitC_digitChar (n : Nat) : isDigitC (digitChar n) = true := by
  have h : n % 10 = 0 ∨ n % 10 = 1 ∨ n % 10 = 2 ∨ n % 10 = 3 ∨ n % 10 = 4 ∨
      n % 10 = 5 ∨ n % 10 = 6 ∨ n % 10 = 7 ∨ n % 10 = 8 ∨ n % 10 = 9 := by omega
  unfold digitChar
  rcases h with h | h | h | h | h | h | h | h | h | h <;> rw [h] <;> decide

/-- Every formatted date has the ISO shape: pad4 and pad2 emit digit
characters at fixed positions. -/
theorem isIsoShape_format (x : Ymd) : isIsoShape (formatYmdS x) = true := by
  show isIsoShape (String.mk (formatYmdL x)) = true
  simp [isIsoShape, formatYmdL, pad4, pad2, isDigitC_digitChar]

/-- rollover is the identity when the day fits the month. -/
theorem rollover_id (f : Nat) (x : Ymd) (h : x.d ≤ daysInMonth x.y x.m) :
    rollover (f + 1) x = x := by
  show rollover (Nat.succ f) x = x
  unfold rollover
  rw [if_neg (Nat.not_lt.mpr h)]

/-- mkDateJS is the identity when the day fits the month. -/
theorem mkDateJS_id (x : Ymd) (h : x.d ≤ daysInMonth x.y x.m) : mkDateJS x = x :=
  rollover_id 3 x h

/-- C5: normalizeDate returns an ISO YYYY-MM-DD string or null: every
returned string has the ISO shape; an input parsed by one of the
DATE_FORMATS templates (with a day that fits its month, so the JS Date
roll-over is inert) is returned in ISO form; an input accepted only by
the generic fallback parse is returned exactly when its year exceeds
1990, and is null otherwise.  Totality (never throws) is inherent in the
model: normalizeDate is a total function into Option. -/
theorem normalizeDate_spec :
    (∀ raw s, normalizeDate raw = some s → isIsoShape s = true) ∧
    (∀ raw ymd, raw.data.isEmpty = false →
      tryFormats DATE_FORMATS (cleanedDate raw) = some ymd →
      ymd.d ≤ daysInMonth ymd.y ymd.m →
      normalizeDate raw = some (formatYmdS ymd)) ∧
    (∀ raw n, raw.data.isEmpty = false →
      tryFormats DATE_FORMATS (cleanedDate raw) = none →
      jsDateParse (cleanedDate raw) = some n →
      normalizeDate raw = (if n.y > 1990 then some (formatYmdS n) else none)) := by
  refine ⟨?_, ?_, ?_⟩
  · intro raw s h
    unfold normalizeDate at h
    split at h
    · exact absurd h (by simp)
    · split at h
      · cases h
        exact isIsoShape_format _
      · split at h
        · split at h
          · cases h
            exact isIsoShape_format _
          · exact absurd h (by simp)
        · exact absurd h (by simp)
  · intro raw ymd h0 h1 h2
    unfold normalizeDate
    rw [if_neg (by simp [h0]), h1]
    show some (formatYmdS (mkDateJS ymd)) = some (formatYmdS ymd)
    rw [mkDateJS_id ymd h2]
  · intro raw n h0 h1 h2
    unfold normalizeDate
    rw [if_neg (by simp [h0]), h1, h2]

/-- C5 witness: "15/01/2024" parses by the first template and round-trips
to ISO form with the shape property; "January 5 1980" is accepted only by
the fallback parse and is rejected by the year guard. -/
theorem normalizeDate_spec_witness :
    normalizeDate "15/01/2024" = some (formatYmdS ⟨2024, 1, 15⟩) ∧
    isIsoShape (formatYmdS ⟨2024, 1, 15⟩) = true ∧
    normalizeDate "January 5 1980" = none := by
  have h1 := normalizeDate_spec.2.1 "15/01/2024" ⟨2024, 1, 15⟩ rfl rfl (by decide)
  have h2 := normalizeDate_spec.1 "15/01/2024" (formatYmdS ⟨2024, 1, 15⟩) h1
  have h3 := normalizeDate_spec.2.2 "January 5 1980" ⟨1980, 1, 5⟩ rfl rfl rfl
  exact ⟨h1, h2, by rw [h3]; rfl⟩

/-! ### Amount-normalizer lemmas -/

/-- Filtering past a dropWhile whose dropped elements the filter removes
anyway. -/
theorem filter_dropWhile_of_imp {p keep : Char → Bool}
    (h : ∀ a, p a = true → keep a = false) :
    ∀ l : List Char, (l.dropWhile p).filter keep = l.filter keep
  | [] => rfl
  | a :: l => by
    by_cases hp : p a = true
    · have hk : keep a = false := h a hp
      simp [List.dropWhile_cons, hp, hk, List.filter_cons, filter_dropWhile_of_imp h l]
    · simp [List.dropWhile_cons, hp]

/-- The symbol strip removes whitespace, so trimming first changes
nothing. -/
theorem strip_trim (l : List Char) : stripChars (jsTrim l) = stripChars l := by
  have h : ∀ a, isSpaceC a = true → (fun c => !stripAmt c) a = false := by
    intro a ha
    simp [stripAmt, ha]
  simp only [stripChars, jsTrim]
  rw [List.filter_reverse, filter_dropWhile_of_imp h, List.filter_reverse,
    List.reverse_reverse, filter_dropWhile_of_imp h]

/-- The symbol strip is idempotent. -/
theorem strip_idem (l : List Char) : stripChars (stripChars l) = stripChars l := by
  simp [stripChars, List.filter_filter]

/-- The leading-minus removal is the identity without a leading minus. -/
theorem dropLeadMinus_of_ne {l : List Char} (h : l.head? ≠ some '-') :
    dropLeadMinus l = l := by
  unfold dropLeadMinus
  split
  · exact absurd rfl h
  · rfl

/-- Stripping currency symbols, whitespace and commas first does not
change normalizeAmount. -/
theorem normalizeAmount_strip_invariant (raw : String) :
    normalizeAmount (String.mk (stripChars raw.data)) = normalizeAmount raw := by
  show (if (stripChars raw.data).isEmpty then none
        else normAmtCore (stripChars (jsTrim (stripChars raw.data)))) =
       (if raw.data.isEmpty then none else normAmtCore (stripChars (jsTrim raw.data)))
  rw [strip_trim, strip_trim, strip_idem]
  by_cases h0 : raw.data.isEmpty = true
  · have hd : raw.data = [] := by simpa using h0
    rw [hd]
    rfl
  · rw [if_neg h0]
    by_cases h1 : (stripChars raw.data).isEmpty = true
    · rw [if_pos h1]
      have ht : stripChars raw.data = [] := by simpa using h1
      rw [ht]
      rfl
    · rw [if_neg h1]

/-- The parenthesis removal is the identity on parenthesis-free text. -/
theorem filter_paren_id (t : List Char)
    (hnp : t.all (fun c => !(c = '(' || c = ')')) = true) :
    t.filter (fun c => !(c = '(' || c = ')')) = t := by
  rw [List.filter_eq_self]
  intro a ha
  exact List.all_eq_true.mp hnp a ha

/-- A parenthesis-free list does not start with an opening
parenthesis. -/
theorem head_ne_paren {t : List Char}
    (hnp : t.all (fun c => !(c = '(' || c = ')')) = true) :
    t.head? ≠ some '(' := by
  cases t with
  | nil => simp
  | cons c r =>
    intro hc
    have hc2 : c = '(' := by simpa using hc
    subst hc2
    simp at hnp

/-- The symbol strip leaves no whitespace behind. -/
theorem stripChars_no_space {x : List Char} {c : Char} (hc : c ∈ stripChars x) :
    isSpaceC c = false := by
  have h2 : stripAmt c = false := by
    have := (List.mem_filter.mp hc).2
    simpa using this
  cases hsp : isSpaceC c
  · rfl
  · unfold stripAmt at h2
    rw [hsp] at h2
    simp at h2

/-- dropWhile is the identity when no element satisfies the predicate. -/
theorem dropWhile_eq_self_of_all {l : List Char} (h : ∀ c ∈ l, isSpaceC c = false) :
    l.dropWhile isSpaceC = l := by
  cases l with
  | nil => rfl
  | cons a r =>
    rw [List.dropWhile_cons, h a (List.mem_cons_self a r)]
    simp

/-- A branch of two nonnegative rationals is nonnegative. -/
theorem ite_nonneg (p : Prop) [Decidable p] (x y : ℚ) (hx : 0 ≤ x) (hy : 0 ≤ y) :
    0 ≤ if p then x else y := by
  split
  · exact hx
  · exact hy

/-- The exponent part preserves nonnegativity of the mantissa. -/
theorem parseExpPart_nonneg {m : ℚ} (hm : 0 ≤ m) (t : List Char) :
    0 ≤ parseExpPart m t := by
  unfold parseExpPart
  split
  · exact ite_nonneg _ _ _ hm (div_nonneg hm (by positivity))
  · exact ite_nonneg _ _ _ hm (mul_nonneg hm (by positivity))
  · exact ite_nonneg _ _ _ hm (mul_nonneg hm (by positivity))

/-- The unsigned float literal fragment parses to a nonnegative value. -/
theorem parseUnsignedQ_nonneg {l : List Char} {q : ℚ}
    (h : parseUnsignedQ l = some q) : 0 ≤ q := by
  simp only [parseUnsignedQ] at h
  split at h
  · exact absurd h (by simp)
  · simp only [Option.some.injEq] at h
    rw [← h]
    split
    · exact parseExpPart_nonneg (by positivity) _
    · exact parseExpPart_nonneg (by positivity) _
    · positivity

/-- parseFloat without a leading minus returns a nonnegative value. -/
theorem parseFloatQ_nonneg_of_head {l : List Char} {q : ℚ}
    (hws : l.dropWhile isSpaceC = l)
    (hh : l.head? ≠ some '-')
    (h : parseFloatQ l = some q) : 0 ≤ q := by
  unfold parseFloatQ at h
  rw [hws] at h
  split at h
  · exact absurd rfl hh
  · exact parseUnsignedQ_nonneg h
  · exact parseUnsignedQ_nonneg h

/-- Wrapping parenthesis-free, minus-free text in parentheses negates the
parsed value. -/
theorem normAmtCore_paren (t : List Char)
    (hnp : t.all (fun c => !(c = '(' || c = ')')) = true)
    (hnm : t.head? ≠ some '-') :
    normAmtCore ('(' :: t ++ [')']) = (normAmtCore t).map (fun q => -q) := by
  have hs2L : ('(' :: t ++ [')']).filter (fun c => !(c = '(' || c = ')')) = t := by
    rw [List.filter_append, List.filter_cons_of_neg (by decide),
      List.filter_cons_of_neg (by decide), filter_paren_id t hnp]
    simp
  simp only [normAmtCore]
  rw [hs2L, filter_paren_id t hnp, dropLeadMinus_of_ne hnm]
  cases hp : parseFloatQ t with
  | none => simp
  | some a =>
    have hlast2 : ('(' :: (t ++ [')'])).getLast? = some ')' := by
      rw [← List.cons_append]
      exact List.getLast?_concat _
    simp [hlast2, eq_false hnm, eq_false (head_ne_paren hnp)]

/-- The core returns a nonnegative value on parenthesis-free text with no
leading minus. -/
theorem normAmtCore_nonneg {t : List Char} {q : ℚ}
    (hws : ∀ c ∈ t, isSpaceC c = false)
    (hnp : t.all (fun c => !(c = '(' || c = ')')) = true)
    (hh : t.head? ≠ some '-')
    (h : normAmtCore t = some q) : 0 ≤ q := by
  simp only [normAmtCore] at h
  rw [filter_paren_id t hnp, dropLeadMinus_of_ne hh] at h
  cases hp : parseFloatQ t with
  | none => rw [hp] at h; exact absurd h (by simp)
  | some a =>
    rw [hp] at h
    simp [eq_false hh, eq_false (head_ne_paren hnp)] at h
    rw [← h]
    exact parseFloatQ_nonneg_of_head (dropWhile_eq_self_of_all hws) hh hp

/-- The core returns a nonpositive value on parenthesis-free text with
exactly one leading minus. -/
theorem normAmtCore_nonpos {t u : List Char} {q : ℚ}
    (hws : ∀ c ∈ t, isSpaceC c = false)
    (hnp : t.all (fun c => !(c = '(' || c = ')')) = true)
    (ht : t = '-' :: u)
    (hu : u.head? ≠ some '-')
    (h : normAmtCore t = some q) : q ≤ 0 := by
  subst ht
  simp only [normAmtCore] at h
  rw [filter_paren_id _ hnp] at h
  rw [show dropLeadMinus ('-' :: u) = u from rfl] at h
  cases hp : parseFloatQ u with
  | none => rw [hp] at h; exact absurd h (by simp)
  | some a =>
    rw [hp] at h
    have ha : 0 ≤ a := parseFloatQ_nonneg_of_head
      (dropWhile_eq_self_of_all (fun c hc => hws c (List.mem_cons_of_mem _ hc))) hu hp
    simp at h
    rw [← h]
    simpa using ha

/-- Parenthesizing an amount string negates its value, provided the
stripped string has no parentheses of its own and no leading minus. -/
theorem normalizeAmount_paren_negates (s : String)
    (hnp : (stripChars s.data).all (fun c => !(c = '(' || c = ')')) = true)
    (hnm : (stripChars s.data).head? ≠ some '-') :
    normalizeAmount (String.mk ('(' :: s.data ++ [')'])) =
      (normalizeAmount s).map (fun q => -q) := by
  show (if ('(' :: s.data ++ [')']).isEmpty then none
        else normAmtCore (stripChars (jsTrim ('(' :: s.data ++ [')'])))) =
       (if s.data.isEmpty then none
        else normAmtCore (stripChars (jsTrim s.data))).map (fun q => -q)
  rw [if_neg (by simp), strip_trim]
  have hsc : stripChars ('(' :: s.data ++ [')']) = '(' :: stripChars s.data ++ [')'] := by
    simp only [stripChars]
    rw [List.filter_append, List.filter_cons_of_pos (by decide),
      List.filter_cons_of_pos (by decide)]
    rfl
  rw [hsc, normAmtCore_paren _ hnp hnm, strip_trim]
  by_cases h0 : s.data.isEmpty = true
  · have hd : s.data = [] := by simpa using h0
    rw [if_pos h0, hd]
    rfl
  · rw [if_neg h0]

/-- An input whose post-strip text parseFloat rejects normalizes to
null. -/
theorem normalizeAmount_parse_none (raw : String)
    (h : parseFloatQ (dropLeadMinus ((stripChars raw.data).filter
      (fun c => !(c = '(' || c = ')')))) = none) :
    normalizeAmount raw = none := by
  show (if raw.data.isEmpty then none
        else normAmtCore (stripChars (jsTrim raw.data))) = none
  by_cases h0 : raw.data.isEmpty = true
  · rw [if_pos h0]
  · rw [if_neg h0, strip_trim]
    simp only [normAmtCore]
    rw [h]

/-- C6 (counterexample): the sign behaviour is not the claimed exact
rule.  "(-5)" carries both indicators and evaluates to -5, not to the
negation of the value of "-5"; "--5" has a leading minus yet evaluates
to +5, because only one leading minus is removed before the parse and
the single isNegative flag re-negates the parsed -5; and "-0" has a
leading minus yet evaluates to 0, which is not negative. -/
theorem normalizeAmount_sign_indicators_not_exact :
    normalizeAmount "(-5)" = some (-5) ∧
    normalizeAmount "-5" = some (-5) ∧
    normalizeAmount "--5" = some 5 ∧
    normalizeAmount "-0" = some 0 :=
  of_decide_eq_true (by with_unfolding_all rfl)

/-- C6 (amended): normalizeAmount is invariant under pre-stripping
currency symbols, whitespace and comma separators; a fully parenthesized
amount equals the negation of the unparenthesized one provided the
stripped inner text carries no parentheses and no leading minus of its
own (a doubly negated input such as a minus inside parentheses breaks
the unrestricted negation rule); with no parentheses the result is
nonnegative when no leading minus is present and nonpositive when
exactly one is (so a sign indicator forces the sign only up to zero and
double-minus inputs, rather than the claimed exact equivalence); input
whose stripped text does not parse as a number yields null. -/
theorem normalizeAmount_strip_paren_sign_rules :
    (∀ raw : String,
      normalizeAmount (String.mk (stripChars raw.data)) = normalizeAmount raw) ∧
    (∀ s : String,
      (stripChars s.data).all (fun c => !(c = '(' || c = ')')) = true →
      (stripChars s.data).head? ≠ some '-' →
      normalizeAmount (String.mk ('(' :: s.data ++ [')'])) =
        (normalizeAmount s).map (fun q => -q)) ∧
    (∀ (raw : String) (q : ℚ),
      (stripChars raw.data).all (fun c => !(c = '(' || c = ')')) = true →
      (stripChars raw.data).head? ≠ some '-' →
      normalizeAmount raw = some q → 0 ≤ q) ∧
    (∀ (raw : String) (q : ℚ) (u : List Char),
      (stripChars raw.data).all (fun c => !(c = '(' || c = ')')) = true →
      stripChars raw.data = '-' :: u →
      u.head? ≠ some '-' →
      normalizeAmount raw = some q → q ≤ 0) ∧
    (∀ raw : String,
      parseFloatQ (dropLeadMinus ((stripChars raw.data).filter
        (fun c => !(c = '(' || c = ')')))) = none →
      normalizeAmount raw = none) := by
  refine ⟨normalizeAmount_strip_invariant, normalizeAmount_paren_negates, ?_, ?_, normalizeAmount_parse_none⟩
  · intro raw q hnp hh h
    rw [show normalizeAmount raw =
      (if raw.data.isEmpty then none
       else normAmtCore (stripChars (jsTrim raw.data))) from rfl, strip_trim] at h
    by_cases h0 : raw.data.isEmpty = true
    · rw [if_pos h0] at h
      exact absurd h (by simp)
    · rw [if_neg h0] at h
      exact normAmtCore_nonneg (fun c hc => stripChars_no_space hc) hnp hh h
  · intro raw q u hnp ht hu h
    rw [show normalizeAmount raw =
      (if raw.data.isEmpty then none
       else normAmtCore (stripChars (jsTrim raw.data))) from rfl, strip_trim] at h
    by_cases h0 : raw.data.isEmpty = true
    · rw [if_pos h0] at h
      exact absurd h (by simp)
    · rw [if_neg h0] at h
      exact normAmtCore_nonpos (fun c hc => stripChars_no_space hc) hnp ht hu h

/-- C6 witness: the strip invariance at a currency-and-comma input, the
parenthesis negation at "(5)", the sign rules at "7.25" and "-7.25", and
the null fallthrough at "abc". -/
theorem normalizeAmount_strip_paren_sign_rules_witness :
    normalizeAmount (String.mk (stripChars "₹ 1,234.50".data)) = normalizeAmount "₹ 1,234.50" ∧
    normalizeAmount (String.mk ('(' :: "5".data ++ [')'])) =
      (normalizeAmount "5").map (fun q => -q) ∧
    (normalizeAmount "7.25" = some (29 / 4) ∧ 0 ≤ (29 / 4 : ℚ)) ∧
    (normalizeAmount "-7.25" = some (-(29 / 4)) ∧ (-(29 / 4) : ℚ) ≤ 0) ∧
    normalizeAmount "abc" = none := by
  have hpos : normalizeAmount "7.25" = some (29 / 4) :=
    of_decide_eq_true (by with_unfolding_all rfl)
  have hneg : normalizeAmount "-7.25" = some (-(29 / 4)) :=
    of_decide_eq_true (by with_unfolding_all rfl)
  refine ⟨?_, ?_, ⟨hpos, ?_⟩, ⟨hneg, ?_⟩, ?_⟩
  · exact normalizeAmount_strip_paren_sign_rules.1 "₹ 1,234.50"
  · exact normalizeAmount_strip_paren_sign_rules.2.1 "5" (by decide) (by decide)
  · exact normalizeAmount_strip_paren_sign_rules.2.2.1 "7.25" (29 / 4)
      (by decide) (by decide) hpos
  · exact normalizeAmount_strip_paren_sign_rules.2.2.2.1 "-7.25" (-(29 / 4)) "7.25".data
      (by decide) (by decide) (by decide) hneg
  · exact normalizeAmount_strip_paren_sign_rules.2.2.2.2 "abc"
      (of_decide_eq_true (by with_unfolding_all rfl))

/-- C9 (amended): when no bank table-header pattern matches any line, the
extractor returns the heuristic scan of every line together with exactly
the NO_TABLE_HEADER and HEURISTIC_PARSING warnings, and every extracted
transaction comes from a line holding a date token and at least one
two-decimal monetary token, with the monetary tokens assigned
positionally THROUGH THE FALSY OR-NULL: first = debit, second = credit,
third = balance, except that a token parsing to 0 (and a missing
position) is recorded as null. -/
theorem heuristic_fallback_positional_or_null
    (nd : String → Option String) (lines : List (List Char)) (fullText : List Char)
    (hnh : ∀ l ∈ lines, reTest true reHP1 l = false ∧ reTest true reHP2 l = false ∧
      reTest true reHP3 l = false) :
    extractTransactions nd lines fullText =
      (lines.filterMap (parseHeurLine nd), [wNoTableHeader, wHeuristicParsing]) ∧
    ∀ t ∈ (extractTransactions nd lines fullText).1, ∃ l ∈ lines, ∃ dm,
      reFind false reHeurDate l = some dm ∧
      ((reFindAll false reHeurAmt l).map
        (fun m => normalizeAmount (String.mk m.mat))).isEmpty = false ∧
      t.debit = idxOrNull ((reFindAll false reHeurAmt l).map
        (fun m => normalizeAmount (String.mk m.mat))) 0 ∧
      t.credit = idxOrNull ((reFindAll false reHeurAmt l).map
        (fun m => normalizeAmount (String.mk m.mat))) 1 ∧
      t.balance = idxOrNull ((reFindAll false reHeurAmt l).map
        (fun m => normalizeAmount (String.mk m.mat))) 2 := by
  have hfh : findHeaderIdx lines = none := by
    unfold findHeaderIdx
    rw [List.findIdx?_eq_none_iff.mpr (fun x hx => (hnh x hx).1),
      List.findIdx?_eq_none_iff.mpr (fun x hx => (hnh x hx).2.1),
      List.findIdx?_eq_none_iff.mpr (fun x hx => (hnh x hx).2.2)]
  have h1 : extractTransactions nd lines fullText =
      (lines.filterMap (parseHeurLine nd), [wNoTableHeader, wHeuristicParsing]) := by
    unfold extractTransactions
    rw [hfh]
    rfl
  refine ⟨h1, ?_⟩
  intro t ht
  rw [h1] at ht
  obtain ⟨l, hl, hp⟩ := List.mem_filterMap.mp ht
  refine ⟨l, hl, ?_⟩
  simp only [parseHeurLine] at hp
  split at hp
  · exact absurd hp (by simp)
  · rename_i dm heq
    split at hp
    · exact absurd hp (by simp)
    · rename_i hne
      simp only [Option.some.injEq] at hp
      refine ⟨dm, heq, ?_, ?_, ?_, ?_⟩
      · simpa using hne
      · rw [← hp]
      · rw [← hp]
      · rw [← hp]

/-- C9 witness: on the single heuristic line "01/01/2024 POS PURCHASE
0.00 250.00" no header pattern matches and the extractor returns the
heuristic scan with the two fallback warnings. -/
theorem heuristic_fallback_positional_or_null_witness :
    extractTransactions normalizeDate
        ["01/01/2024 POS PURCHASE 0.00 250.00".data] [] =
      (["01/01/2024 POS PURCHASE 0.00 250.00".data].filterMap (parseHeurLine normalizeDate),
       [wNoTableHeader, wHeuristicParsing]) :=
  (heuristic_fallback_positional_or_null normalizeDate
      ["01/01/2024 POS PURCHASE 0.00 250.00".data] []
      (by
        intro l hl
        simp only [List.mem_singleton] at hl
        subst hl
        exact ⟨of_decide_eq_true (by with_unfolding_all rfl),
               of_decide_eq_true (by with_unfolding_all rfl),
               of_decide_eq_true (by with_unfolding_all rfl)⟩)).1

end OCE
